import Mathlib

/-!
Verification development for the transactional world-state engine of the
world-explorer repository (src/lib/game/types.ts, src/lib/game/state/transaction.ts,
src/lib/game/engine.ts).

The TypeScript code manipulates plain JSON data: every World is produced by
JSON.parse(JSON.stringify(...)) cloning, so the observable state is exactly a
JSON value.  We therefore embed entities as a JSON value type JValue and
transcribe each source function over it.  TypeScript-specific behaviours that
the source relies on are modelled explicitly:
  - truthiness (undefined, null, false, 0, and the empty string are falsy);
  - strict equality on primitives (on objects and arrays it is reference
    equality; after a JSON clone distinct paths never alias, so strict
    equality of two object or array values reached by different paths is
    false, which is how the model defines it);
  - property access on non-objects (undefined except for string and array
    index or length access);
  - strict-mode TypeError on assigning a property of a primitive.
Numbers are modelled as Int: every number the engine computes from integer
inputs is an integer (max, min, +, -), and the claims quantify over integer
data.  Non-integer or NaN inputs are outside the model; theorems about worlds
carry well-formedness hypotheses that pin the relevant fields to modelled
values.  Identifiers produced by crypto.randomUUID and timestamps from
Date.now are never read by any engine logic, so the model fills them with
constants.
-/

namespace WorldExplorer

/-- A JSON value: the observable state of any world object after the JSON
round-trip performed by cloneWorld. -/
inductive JValue where
  | null : JValue
  | bool (b : Bool) : JValue
  | num (n : Int) : JValue
  | str (s : String) : JValue
  | arr (elems : List JValue) : JValue
  | obj (fields : List (String × JValue)) : JValue
deriving Repr

/-- Lookup of a key in a JS object field list (first match; JS objects have
unique keys, so the model lists are expected to be duplicate-free). -/
def jlookup : List (String × JValue) → String → Option JValue
  | [], _ => none
  | (k, v) :: rest, key => if k = key then some v else jlookup rest key

/-- In-place property update of a JS object: an existing key keeps its
position, a new key is appended (JS insertion order). -/
def jset : List (String × JValue) → String → JValue → List (String × JValue)
  | [], key, v => [(key, v)]
  | (k, w) :: rest, key, v =>
    if k = key then (key, v) :: rest else (k, w) :: jset rest key v

/-- Digit value of a character, when it is a decimal digit. -/
def charDigit? (c : Char) : Option Nat :=
  if '0' ≤ c ∧ c ≤ '9' then some (c.toNat - 48) else none

/-- Whether every character of the list is a decimal digit. -/
def allDigits (cs : List Char) : Bool :=
  cs.all (fun c => (charDigit? c).isSome)

/-- Decimal value of a digit list. -/
def digitsVal (cs : List Char) : Nat :=
  cs.foldl (fun acc c => acc * 10 + ((charDigit? c).getD 0)) 0

/-- Canonical array-index test: JS treats a property key as an array index
only when it is the canonical decimal representation of the index, that is,
a nonempty digit string without a leading zero (or exactly the string 0). -/
def asIndex (k : String) : Option Nat :=
  match k.toList with
  | [] => none
  | c :: cs =>
    if c = '0' then (if cs = [] then some 0 else none)
    else if (charDigit? c).isSome && allDigits cs then some (digitsVal (c :: cs))
    else none

/-- Property read, modelling the JS expression target[key]: objects by key,
arrays by canonical index or length, strings by index or length, and
undefined (none) on every other primitive. -/
def jsGet : JValue → String → Option JValue
  | .obj fs, k => jlookup fs k
  | .arr xs, k =>
    if k = "length" then some (.num (xs.length : Int))
    else
      match asIndex k with
      | some i => xs.get? i
      | none => none
  | .str s, k =>
    if k = "length" then some (.num (s.length : Int))
    else
      match asIndex k with
      | some i =>
        match s.toList.get? i with
        | some c => some (.str (String.singleton c))
        | none => none
      | none => none
  | _, _ => none

/-- Truthiness of a present JS value. -/
def truthy : JValue → Bool
  | .null => false
  | .bool b => b
  | .num n => n != 0
  | .str s => s != ""
  | .arr _ => true
  | .obj _ => true

/-- Truthiness of a possibly-undefined JS value (undefined is falsy). -/
def truthyO : Option JValue → Bool
  | none => false
  | some v => truthy v

/-- Strict equality (the JS operator with three equals signs) restricted to
the value model: primitives compare by value; object or array operands
compare by reference, and after a JSON clone two object or array values
reached by different paths never alias, so the model returns false. -/
def jsStrictEq : JValue → JValue → Bool
  | .null, .null => true
  | .bool a, .bool b => a == b
  | .num a, .num b => a == b
  | .str a, .str b => a == b
  | _, _ => false

/-- Strict equality where either side may be undefined (undefined is strictly
equal only to undefined). -/
def jsStrictEqO : Option JValue → Option JValue → Bool
  | none, none => true
  | some a, some b => jsStrictEq a b
  | _, _ => false

mutual

/-- String conversion of a JS value as used in template literals. -/
def jsDisplay : JValue → String
  | .null => "null"
  | .bool b => if b then "true" else "false"
  | .num n => toString n
  | .str s => s
  | .arr xs => jsDisplayArr xs
  | .obj _ => "[object Object]"

/-- Array-to-string conversion: elements joined with commas, where null
elements become empty strings. -/
def jsDisplayArr : List JValue → String
  | [] => ""
  | [x] => jsDisplayElem x
  | x :: y :: rest => jsDisplayElem x ++ "," ++ jsDisplayArr (y :: rest)

/-- A single array element inside a join: null prints as empty. -/
def jsDisplayElem : JValue → String
  | .null => ""
  | v => jsDisplay v

end

/-- String conversion of a possibly-undefined value inside a template
literal: undefined prints as the word undefined. -/
def jsDisplayO : Option JValue → String
  | none => "undefined"
  | some v => jsDisplay v

/-- Splitting a character list on the dot character, JS String.prototype.split
semantics: the empty string splits to one empty segment, adjacent dots give
empty segments. -/
def splitDotsList : List Char → List String
  | [] => [""]
  | c :: rest =>
    match splitDotsList rest with
    | [] => [String.singleton c]
    | h :: t =>
      if c = '.' then "" :: h :: t
      else (String.singleton c ++ h) :: t

/-- JS field.split on a dot, over Lean strings. -/
def splitDots (s : String) : List String :=
  splitDotsList s.toList

/-- Entity id as used for Map keys and strict comparisons: present only when
the id property is a string (the only case in which it can match a string
lookup key). -/
def eid? (e : JValue) : Option String :=
  match jsGet e "id" with
  | some (.str s) => some s
  | _ => none

/-- The World record of types.ts.  Entities are raw JSON values because the
change applier addresses their fields dynamically. -/
structure World where
  world_name : String
  world_description : String
  starting_location : String
  entities : List JValue
deriving Repr

/-- A StateChange record (types.ts).  The id field is assigned from
crypto.randomUUID in the source and never read; the model stores the empty
string there. -/
structure StateChange where
  id : String
  entityId : String
  field : String
  oldValue : JValue
  newValue : JValue
  turn : Int
  description : String
deriving Repr

/-- A WorldSnapshot (types.ts); the timestamp comes from Date.now in the
source and is never read, so the model stores zero. -/
structure WorldSnapshot where
  timestamp : Int
  turn : Int
  world : World
  label : Option String
deriving Repr

/-- A StateTransaction (types.ts). -/
structure StateTransaction where
  id : String
  preSnapshot : WorldSnapshot
  changes : List StateChange
  committed : Bool
  rolledBack : Bool
deriving Repr

/-- cloneWorld performs JSON.parse(JSON.stringify(world)): on the JSON value
model this round-trip is the identity on values (it produces a fresh,
non-aliased object graph; aliasing is studied separately in the heap model
below). -/
def cloneWorld (w : World) : World := w

/-- createSnapshot (transaction.ts). -/
def createSnapshot (w : World) (turn : Int) (label : Option String) : WorldSnapshot :=
  { timestamp := 0, turn, world := cloneWorld w, label }

/-- The TransactionManager state: its single private field. -/
structure TMState where
  transaction : Option StateTransaction
deriving Repr

/-- First entity of the list whose id strictly equals the given string, with
its position: models Array.prototype.find and findIndex on e.id. -/
def findFirstById : List JValue → String → Option (Nat × JValue)
  | [], _ => none
  | e :: rest, i =>
    if eid? e = some i then some (0, e)
    else
      match findFirstById rest i with
      | some (n, x) => some (n + 1, x)
      | none => none

/-- Remove the first entity whose id equals the given string (findIndex then
splice in the source); no-op when absent. -/
def removeFirstById : List JValue → String → List JValue
  | [], _ => []
  | e :: rest, i =>
    if eid? e = some i then rest else e :: removeFirstById rest i

/-- Write a value into an object or array at one key, modelling the JS
assignment target[key] = v in strict mode: objects always succeed, arrays
succeed on canonical indices (out-of-range indices pad with null, the JSON
image of array holes) and ignore other keys (such properties are dropped by
the next JSON clone), and primitives raise a TypeError. -/
def jsSet : JValue → String → JValue → Except String JValue
  | .obj fs, k, v => .ok (.obj (jset fs k v))
  | .arr xs, k, v =>
    (match asIndex k with
    | some i =>
      if i < xs.length then .ok (.arr (xs.set i v))
      else .ok (.arr ((xs ++ List.replicate (i - xs.length) JValue.null) ++ [v]))
    | none => .ok (.arr xs))
  | _, k, _ => .error ("TypeError: cannot create property " ++ k)

/-- Re-insert an updated subvalue at a key of a container; used to express
the in-place mutation of a nested container reached by reference. only
containers can have yielded a mutable subvalue, so other cases return the
value unchanged. -/
def jsPut (v : JValue) (k : String) (sub : JValue) : JValue :=
  match v with
  | .obj fs => .obj (jset fs k sub)
  | .arr xs =>
    (match asIndex k with
    | some i => .arr (xs.set i sub)
    | none => .arr xs)
  | _ => v

/-- Descend the dot-separated path for all but the last segment, checking
each intermediate for undefined or null exactly as the applyChange loop in
transaction.ts does, then assign the final segment. -/
def setPath (v : JValue) (parts : List String) (nv : JValue) (fieldName : String) :
    Except String JValue :=
  match parts with
  | [] => .ok v
  | [k] => jsSet v k nv
  | k :: rest =>
    match jsGet v k with
    | none => .error ("Invalid field path: \"" ++ fieldName ++ "\"")
    | some .null => .error ("Invalid field path: \"" ++ fieldName ++ "\"")
    | some sub =>
      match setPath sub rest nv fieldName with
      | .error m => .error m
      | .ok sub2 => .ok (jsPut v k sub2)

/-- The claim's reading of the descent: the dot-path stays inside object
containers, every intermediate key is present, and the final container is an
object.  Paths through arrays or with missing links are outside this
predicate and are characterized clause by clause instead. -/
def objPathOk : JValue → List String → Bool
  | .obj _, [_] => true
  | .obj fs, k :: rest =>
    (match jlookup fs k with
    | some sub => objPathOk sub rest
    | none => false)
  | _, _ => false

/-- Functional nested update along a chain of object keys: the value the
in-place assignment loop of applyChange leaves behind when objPathOk holds. -/
def updateAtKeys : JValue → List String → JValue → JValue
  | .obj fs, [k], v => .obj (jset fs k v)
  | .obj fs, k :: rest, v =>
    (match jlookup fs k with
    | some sub => .obj (jset fs k (updateAtKeys sub rest v))
    | none => .obj fs)
  | e, _, _ => e

/-- applyChange (transaction.ts): apply a single change to a world.  The
source mutates the world in place; the model returns the updated value, and a
thrown Error is an error result. -/
def applyChange (w : World) (c : StateChange) : Except String World :=
  if c.field = "__remove_entity__" then
    .ok { w with entities := removeFirstById w.entities c.entityId }
  else if c.field = "__new_entity__" && truthy c.newValue then
    .ok { w with entities := w.entities ++ [c.newValue] }
  else
    match findFirstById w.entities c.entityId with
    | none => .error ("Entity not found: \"" ++ c.entityId ++ "\"")
    | some (idx, e) =>
      match setPath e (splitDots c.field) c.newValue c.field with
      | .error m => .error m
      | .ok e2 => .ok { w with entities := w.entities.set idx e2 }

/-- Fold of applyChange over the recorded changes, in order (the commit
loop); the first thrown error aborts the loop. -/
def applyChanges (w : World) : List StateChange → Except String World
  | [] => .ok w
  | c :: rest =>
    match applyChange w c with
    | .error m => .error m
    | .ok w2 => applyChanges w2 rest

/-- TransactionManager.startTransaction. -/
def startTransaction (tm : TMState) (w : World) (turn : Int) :
    Except String (TMState × StateTransaction) :=
  match tm.transaction with
  | some t =>
    if !t.committed && !t.rolledBack then
      .error "Cannot start transaction: existing transaction not completed"
    else
      let txn : StateTransaction :=
        { id := "", preSnapshot := createSnapshot w turn (some "pre_transaction"),
          changes := [], committed := false, rolledBack := false }
      .ok ({ transaction := some txn }, txn)
  | none =>
    let txn : StateTransaction :=
      { id := "", preSnapshot := createSnapshot w turn (some "pre_transaction"),
        changes := [], committed := false, rolledBack := false }
    .ok ({ transaction := some txn }, txn)

/-- TransactionManager.recordChange: append a change (with a fresh id, which
the model leaves empty) to the in-flight transaction. -/
def recordChange (tm : TMState) (c : StateChange) : Except String (TMState × StateChange) :=
  match tm.transaction with
  | none => .error "No active transaction"
  | some t =>
    if t.committed || t.rolledBack then .error "No active transaction"
    else
      .ok ({ transaction := some { t with changes := t.changes ++ [c] } }, c)

/-- TransactionManager.commit: clone the argument world, apply every recorded
change in order, mark the transaction committed, return the clone. -/
def TMcommit (tm : TMState) (w : World) : Except String (TMState × World) :=
  match tm.transaction with
  | none => .error "No transaction to commit"
  | some t =>
    if t.committed || t.rolledBack then .error "Transaction already completed"
    else
      match applyChanges (cloneWorld w) t.changes with
      | .error m => .error m
      | .ok w2 => .ok ({ transaction := some { t with committed := true } }, w2)

/-- TransactionManager.rollback: the source checks only that a transaction
exists and that it is not committed; it does not check rolledBack. -/
def TMrollback (tm : TMState) : Except String (TMState × World) :=
  match tm.transaction with
  | none => .error "No transaction to rollback"
  | some t =>
    if t.committed then .error "Cannot rollback committed transaction"
    else
      .ok ({ transaction := some { t with rolledBack := true } },
        cloneWorld t.preSnapshot.world)

/-- TransactionManager.getChangeDescriptions. -/
def getChangeDescriptions (tm : TMState) : List String :=
  match tm.transaction with
  | none => []
  | some t => t.changes.map (fun c => c.description)

/-- The ActionType union (types.ts). -/
inductive ActionType where
  | MOVE | TALK | TAKE_ITEM | DROP_ITEM | USE_ITEM | EXAMINE | REST | WAIT | EXPLORE
deriving Repr, DecidableEq

/-- An Action (types.ts).  The target field is optional in the source; at
runtime it is a string when present (entity ids are object keys or id
fields), which is the only case in which any lookup on it can succeed. -/
structure Action where
  type : ActionType
  target : Option String
  description : String
  energyCost : Int
deriving Repr, DecidableEq

/-- An ActionResult (types.ts). -/
structure ActionResult where
  success : Bool
  world : World
  changes : List String
  error : Option String
deriving Repr

/-- Numeric view of a possibly-undefined value (JS comparisons with
undefined or non-numeric operands that would involve NaN or string coercion
are outside the model; theorems guard such fields with hypotheses). -/
def jsNumO : Option JValue → Option Int
  | some (.num n) => some n
  | _ => none

/-- String view of a possibly-undefined value. -/
def asStrO : Option JValue → Option String
  | some (.str s) => some s
  | _ => none

/-- Comparison v >= n where an undefined or non-numeric left side is false. -/
def optGe (v : Option Int) (n : Int) : Bool :=
  match v with
  | some e => decide (n ≤ e)
  | none => false

/-- Comparison v > n where an undefined or non-numeric left side is false. -/
def optGt (v : Option Int) (n : Int) : Bool :=
  match v with
  | some e => decide (n < e)
  | none => false

/-- Comparison v < n where an undefined or non-numeric left side is false. -/
def optLt (v : Option Int) (n : Int) : Bool :=
  match v with
  | some e => decide (e < n)
  | none => false

/-- Comparison a < b on two raw values, false unless both are numbers. -/
def jsLtB (a b : Option JValue) : Bool :=
  match jsNumO a, jsNumO b with
  | some x, some y => decide (x < y)
  | _, _ => false

/-- The type tag test e.type strictly-equals the given string. -/
def typeIs (e : JValue) (t : String) : Bool :=
  match jsGet e "type" with
  | some (.str s) => s = t
  | _ => false

/-- The energy field of an entity as a number. -/
def energyVal (p : JValue) : Option Int := jsNumO (jsGet p "energy")

/-- The health field of an entity as a number. -/
def healthVal (p : JValue) : Option Int := jsNumO (jsGet p "health")

/-- The inventory field when it is an array.  A non-array, non-nullish
inventory would make the source crash on .includes or spread; such worlds
are outside the model and excluded by hypotheses. -/
def inventoryArr (p : JValue) : Option (List JValue) :=
  match jsGet p "inventory" with
  | some (.arr xs) => some xs
  | _ => none

/-- player.inventory?.includes(v) with strict element comparison. -/
def invIncludes (p : JValue) (v : JValue) : Bool :=
  match inventoryArr p with
  | some xs => xs.any (fun x => jsStrictEq x v)
  | none => false

/-- Last entity of the list whose id is the given string: the Map
constructor inserts entries in order, so a later entity with the same id
overwrites an earlier one. -/
def lastById : List JValue → String → Option JValue
  | [], _ => none
  | e :: rest, i =>
    match lastById rest i with
    | some x => some x
    | none => if eid? e = some i then some e else none

/-- The id-to-entity Map of the engine, built from all entities by the Map
constructor; get returns the last entity whose id is the key. -/
def mapGet (w : World) (i : String) : Option JValue :=
  lastById w.entities i

/-- Object.entries on the connections value: field list of an object, empty
on primitives (a string connections value would enumerate characters in JS;
such worlds are outside the model and excluded by hypotheses). -/
def jsEntries : JValue → List (String × JValue)
  | .obj fs => fs
  | _ => []

/-- People co-located with the player, excluding the player id (the filter
on world.entities in generateValidActions). -/
def peopleHere (w : World) (player : JValue) (pid : String) : List JValue :=
  w.entities.filter (fun e =>
    typeIs e "person" && jsStrictEqO (jsGet e "location") (jsGet player "location") &&
      !(eid? e == some pid))

/-- Items whose location strictly equals the player location. -/
def itemsHere (w : World) (player : JValue) : List JValue :=
  w.entities.filter (fun e =>
    typeIs e "item" && jsStrictEqO (jsGet e "location") (jsGet player "location"))

/-- Inventory ids resolved through the entity map, dropping unresolved ones
(the map-then-filter(Boolean) step of the EXAMINE block). -/
def invResolved (w : World) (player : JValue) : List JValue :=
  match jsGet player "inventory" with
  | some (.arr xs) =>
    xs.filterMap (fun idv =>
      match idv with
      | .str s => mapGet w s
      | _ => none)
  | _ => []

/-- The MOVE candidate for one connections entry: requires the target id to
resolve in the entity map, then checks requires_item membership and
requires_health.  The requirements string interpolated into the description
is only ever non-empty when canMove is false, so an emitted action always
carries the plain travel description. -/
def moveActionFor (w : World) (player : JValue) (tc : String × JValue) : Option Action :=
  match mapGet w tc.1 with
  | none => none
  | some targetPlace =>
    let riv := jsGet tc.2 "requires_item"
    let fail1 := truthyO riv &&
      !(match riv with
        | some v => invIncludes player v
        | none => false)
    let rhv := jsGet tc.2 "requires_health"
    let fail2 := truthyO rhv && jsLtB (jsGet player "health") rhv
    if !fail1 && !fail2 then
      some { type := ActionType.MOVE
             target := some tc.1
             description := "Travel to " ++ jsDisplayO (jsGet targetPlace "name")
             energyCost := 5 }
    else none

/-- ActionEngine.generateValidActions (engine.ts): the fixed sequence of
pushes, transcribed as list concatenation. -/
def generateValidActions (w : World) (pid : String) : List Action :=
  match mapGet w pid with
  | none => []
  | some player =>
    if !(typeIs player "person") then []
    else
      match (match asStrO (jsGet player "location") with
        | some l => mapGet w l
        | none => none) with
      | none => []
      | some playerLocation =>
        if !(typeIs playerLocation "place") then []
        else
          let restA : Action :=
            { type := ActionType.REST
              target := none
              description := "Rest to recover energy"
              energyCost := 0 }
          let waitA : Action :=
            { type := ActionType.WAIT
              target := none
              description := "Wait and observe"
              energyCost := 0 }
          let explores :=
            if optGe (energyVal player) 5 then
              [{ type := ActionType.EXPLORE
                 target := none
                 description := "Explore your surroundings to discover something new"
                 energyCost := 4 }]
            else []
          let moves :=
            if truthyO (jsGet playerLocation "connections") && optGt (energyVal player) 10 then
              (jsEntries ((jsGet playerLocation "connections").getD .null)).filterMap
                (moveActionFor w player)
            else []
          let talks :=
            if optGe (energyVal player) 5 then
              (peopleHere w player pid).map (fun p =>
                { type := ActionType.TALK
                  target := eid? p
                  description := "Talk to " ++ jsDisplayO (jsGet p "name")
                  energyCost := 3 })
            else []
          let takes :=
            (itemsHere w player).map (fun it =>
              { type := ActionType.TAKE_ITEM
                target := eid? it
                description := "Pick up " ++ jsDisplayO (jsGet it "name")
                energyCost := 0 })
          let drops :=
            match inventoryArr player with
            | some xs =>
              xs.filterMap (fun idv =>
                match idv with
                | .str s =>
                  (match mapGet w s with
                  | some item =>
                    some { type := ActionType.DROP_ITEM
                           target := some s
                           description := "Drop " ++ jsDisplayO (jsGet item "name")
                           energyCost := 0 }
                  | none => none)
                | _ => none)
            | none => []
          let uses :=
            match inventoryArr player with
            | some xs =>
              xs.filterMap (fun idv =>
                match idv with
                | .str s =>
                  (match mapGet w s with
                  | some item =>
                    if truthyO (jsGet item "usable") then
                      some { type := ActionType.USE_ITEM
                             target := some s
                             description := "Use " ++ jsDisplayO (jsGet item "name")
                             energyCost := 0 }
                    else none
                  | none => none)
                | _ => none)
            | none => []
          let examines :=
            if optGe (energyVal player) 2 then
              (peopleHere w player pid).map (fun p =>
                { type := ActionType.EXAMINE
                  target := eid? p
                  description := "Examine " ++ jsDisplayO (jsGet p "name")
                  energyCost := 1 }) ++
              ((itemsHere w player ++ invResolved w player).filter
                  (fun it => typeIs it "item")).map (fun it =>
                { type := ActionType.EXAMINE
                  target := eid? it
                  description := "Examine " ++ jsDisplayO (jsGet it "name")
                  energyCost := 1 }) ++
              [{ type := ActionType.EXAMINE
                 target := asStrO (jsGet player "location")
                 description := "Examine " ++ jsDisplayO (jsGet playerLocation "name")
                 energyCost := 1 }]
            else []
          [restA, waitA] ++ explores ++ moves ++ talks ++ takes ++ drops ++ uses ++ examines

/-- ActionEngine.validateAction (engine.ts). -/
def validateAction (w : World) (a : Action) (player : JValue) : Option String :=
  if optLt (energyVal player) a.energyCost then
    some ("Not enough energy. Need " ++ toString a.energyCost ++ ", have " ++
      jsDisplayO (jsGet player "energy") ++ ".")
  else
    match a.type with
    | .MOVE =>
      let conn :=
        match (match asStrO (jsGet player "location") with
          | some l => mapGet w l
          | none => none) with
        | some place =>
          (match jsGet place "connections" with
          | some cs => jsGet cs ((a.target).getD "undefined")
          | none => none)
        | none => none
      if !(truthyO conn) then
        some ("Cannot move to " ++ (a.target).getD "undefined" ++ ": not connected.")
      else none
    | .TAKE_ITEM =>
      match (match a.target with | some t => mapGet w t | none => none) with
      | some it =>
        if typeIs it "item" &&
            jsStrictEqO (jsGet it "location") (jsGet player "location") then none
        else some "Cannot take item: not available."
      | none => some "Cannot take item: not available."
    | .DROP_ITEM =>
      if match a.target with
        | some t => invIncludes player (.str t)
        | none => false
      then none else some "Cannot drop item: not in inventory."
    | .USE_ITEM =>
      if match a.target with
        | some t => invIncludes player (.str t)
        | none => false
      then none else some "Cannot use item: not in inventory."
    | .TALK =>
      match (match a.target with | some t => mapGet w t | none => none) with
      | none => some "Cannot talk to: invalid target."
      | some tg =>
        if !(typeIs tg "person") then some "Cannot talk to: invalid target."
        else if !(jsStrictEqO (jsGet tg "location") (jsGet player "location")) then
          some "Cannot talk to: not in same location."
        else none
    | .EXAMINE =>
      match (match a.target with | some t => mapGet w t | none => none) with
      | none => some "Cannot examine: invalid target."
      | some _ => none
    | .REST => none
    | .WAIT => none
    | .EXPLORE => none

/-- createEnergyChange (transaction.ts). -/
def createEnergyChange (entityId : String) (oldE newE : Int) (turn : Int)
    (reason : String) : StateChange :=
  { id := ""
    entityId
    field := "energy"
    oldValue := .num oldE
    newValue := .num newE
    turn
    description := "Energy " ++ (if oldE < newE then "increased" else "decreased") ++
      " by " ++ toString (newE - oldE).natAbs ++ " (" ++ reason ++ "). Now " ++
      toString newE ++ "/100." }

/-- createHealthChange (transaction.ts). -/
def createHealthChange (entityId : String) (oldH newH : Int) (turn : Int)
    (reason : String) : StateChange :=
  { id := ""
    entityId
    field := "health"
    oldValue := .num oldH
    newValue := .num newH
    turn
    description := "Health " ++ (if oldH < newH then "increased" else "decreased") ++
      " by " ++ toString (newH - oldH).natAbs ++ " (" ++ reason ++ "). Now " ++
      toString newH ++ "/100." }

/-- createLocationChange (transaction.ts).  The source declares string
parameters but the engine passes the raw location value, so the model takes
raw values; undefined old locations are stored as null (the stored values of
this change are never read back except for newValue inside applyChange, where
only the MOVE call site reaches it, always with a string target). -/
def createLocationChange (entityId : String) (oldLoc newLoc : Option JValue)
    (turn : Int) : StateChange :=
  { id := ""
    entityId
    field := "location"
    oldValue := oldLoc.getD .null
    newValue := newLoc.getD .null
    turn
    description := "Moved from " ++ jsDisplayO oldLoc ++ " to " ++
      jsDisplayO newLoc ++ "." }

/-- createInventoryChange (transaction.ts); isAdd true selects the add
wording.  The itemName argument receives item.name at every call site. -/
def createInventoryChange (entityId : String) (oldInv newInv : List JValue)
    (turn : Int) (isAdd : Bool) (itemName : String) : StateChange :=
  { id := ""
    entityId
    field := "inventory"
    oldValue := .arr oldInv
    newValue := .arr newInv
    turn
    description := if isAdd then "Added " ++ itemName ++ " to inventory."
      else "Removed " ++ itemName ++ " from inventory." }

/-- The action.type string used as the reason of the energy-cost change. -/
def actionTypeName : ActionType → String
  | .MOVE => "MOVE"
  | .TALK => "TALK"
  | .TAKE_ITEM => "TAKE_ITEM"
  | .DROP_ITEM => "DROP_ITEM"
  | .USE_ITEM => "USE_ITEM"
  | .EXAMINE => "EXAMINE"
  | .REST => "REST"
  | .WAIT => "WAIT"
  | .EXPLORE => "EXPLORE"

/-- The id of an entity returned by the entity map, as a string (such an
entity always has a string id, since the map matched it against one). -/
def eidStr (e : JValue) : String :=
  (eid? e).getD ""

/-- recordMoveChanges (engine.ts): one location change from the current raw
location to the action target. -/
def recordMoveChanges (player : JValue) (a : Action) (turn : Int) : List StateChange :=
  [createLocationChange (eidStr player) (jsGet player "location")
    (a.target.map JValue.str) turn]

/-- recordTalkChanges (engine.ts): one narrative marker change on the target;
the description falls back to the raw target when the name is falsy. -/
def recordTalkChanges (w : World) (a : Action) (turn : Int) : List StateChange :=
  let target := match a.target with | some t => mapGet w t | none => none
  let nm := match target with | some tg => jsGet tg "name" | none => none
  [{ id := ""
     entityId := a.target.getD "undefined"
     field := "__conversation__"
     oldValue := .null
     newValue := .num turn
     turn
     description := "Had a conversation with " ++
       (if truthyO nm then jsDisplayO nm else jsDisplayO (a.target.map JValue.str)) ++ "." }]

/-- recordTakeItemChanges (engine.ts): throws when the target does not
resolve; otherwise a location change on the item followed by an inventory
addition on the player. -/
def recordTakeItemChanges (w : World) (player : JValue) (a : Action) (turn : Int) :
    Except String (List StateChange) :=
  match (match a.target with | some t => mapGet w t | none => none) with
  | none => .error ("Item not found: \"" ++ a.target.getD "undefined" ++ "\"")
  | some item =>
    let oldInv := (inventoryArr player).getD []
    .ok [
      { id := ""
        entityId := eidStr item
        field := "location"
        oldValue := (jsGet item "location").getD .null
        newValue := .str (eidStr player)
        turn
        description := jsDisplayO (jsGet item "name") ++ " picked up." },
      createInventoryChange (eidStr player) oldInv
        (oldInv ++ [(jsGet item "id").getD .null]) turn true
        (jsDisplayO (jsGet item "name"))]

/-- recordDropItemChanges (engine.ts): throws when the target does not
resolve; otherwise a location change on the item (to the player location)
followed by an inventory removal filtering out every copy of the id. -/
def recordDropItemChanges (w : World) (player : JValue) (a : Action) (turn : Int) :
    Except String (List StateChange) :=
  match (match a.target with | some t => mapGet w t | none => none) with
  | none => .error ("Item not found: \"" ++ a.target.getD "undefined" ++ "\"")
  | some item =>
    let oldInv := (inventoryArr player).getD []
    .ok [
      { id := ""
        entityId := eidStr item
        field := "location"
        oldValue := .str (eidStr player)
        newValue := (jsGet player "location").getD .null
        turn
        description := jsDisplayO (jsGet item "name") ++ " dropped." },
      createInventoryChange (eidStr player) oldInv
        (oldInv.filter (fun x => !(jsStrictEq x (.str (eidStr item))))) turn false
        (jsDisplayO (jsGet item "name"))]

/-- recordUseItemChanges (engine.ts): throws when the target does not resolve
to an item entity; otherwise a clamped health change for a truthy health
effect, a clamped energy change for a truthy energy effect, and for a
consumable item an inventory removal followed by an entity removal. -/
def recordUseItemChanges (w : World) (player : JValue) (a : Action) (turn : Int) :
    Except String (List StateChange) :=
  match (match a.target with | some t => mapGet w t | none => none) with
  | none => .error ("Invalid item: \"" ++ a.target.getD "undefined" ++ "\"")
  | some item =>
    if !(typeIs item "item") then
      .error ("Invalid item: \"" ++ a.target.getD "undefined" ++ "\"")
    else
      let effects := (jsGet item "effects").getD .null
      let effH := jsGet effects "health"
      let effE := jsGet effects "energy"
      let nm := jsDisplayO (jsGet item "name")
      let healthChanges :=
        if truthyO effH then
          let ph := (healthVal player).getD 0
          [createHealthChange (eidStr player) ph
            (max 0 (min 100 (ph + ((jsNumO effH).getD 0)))) turn ("used " ++ nm)]
        else []
      let energyChanges :=
        if truthyO effE then
          let pe := (energyVal player).getD 0
          [createEnergyChange (eidStr player) pe
            (max 0 (min 100 (pe + ((jsNumO effE).getD 0)))) turn ("used " ++ nm)]
        else []
      let consumableChanges :=
        if truthyO (jsGet item "consumable") then
          let oldInv := (inventoryArr player).getD []
          [createInventoryChange (eidStr player) oldInv
            (oldInv.filter (fun x => !(jsStrictEq x (.str (eidStr item))))) turn false nm,
           { id := ""
             entityId := eidStr item
             field := "__remove_entity__"
             oldValue := item
             newValue := .null
             turn
             description := nm ++ " was consumed." }]
        else []
      .ok (healthChanges ++ energyChanges ++ consumableChanges)

/-- recordExamineChanges (engine.ts): throws when the target does not
resolve; otherwise one narrative marker change. -/
def recordExamineChanges (w : World) (a : Action) (turn : Int) :
    Except String (List StateChange) :=
  match (match a.target with | some t => mapGet w t | none => none) with
  | none => .error ("Target not found: \"" ++ a.target.getD "undefined" ++ "\"")
  | some tg =>
    .ok [{ id := ""
           entityId := a.target.getD "undefined"
           field := "__examined__"
           oldValue := .null
           newValue := .num turn
           turn
           description := "Examined " ++ jsDisplayO (jsGet tg "name") ++ "." }]

/-- recordRestChanges (engine.ts): one energy change to min(100, energy + 70). -/
def recordRestChanges (player : JValue) (turn : Int) : List StateChange :=
  let pe := (energyVal player).getD 0
  [createEnergyChange (eidStr player) pe (min 100 (pe + 70)) turn "resting"]

/-- The action-specific switch of executeAction: the list of changes the
action records, or the message of the Error it throws. -/
def recordActionChanges (w : World) (player : JValue) (a : Action) (turn : Int) :
    Except String (List StateChange) :=
  match a.type with
  | .MOVE => .ok (recordMoveChanges player a turn)
  | .TALK => .ok (recordTalkChanges w a turn)
  | .TAKE_ITEM => recordTakeItemChanges w player a turn
  | .DROP_ITEM => recordDropItemChanges w player a turn
  | .USE_ITEM => recordUseItemChanges w player a turn
  | .EXAMINE => recordExamineChanges w a turn
  | .REST => .ok (recordRestChanges player turn)
  | .WAIT => .ok []
  | .EXPLORE => .ok []

/-- The ActionEngine state: its working world and its TransactionManager.
The derived id-to-entity map is recomputed from the world by mapGet. -/
structure EngineState where
  world : World
  tm : TMState
deriving Repr

/-- The ActionEngine constructor: stores a clone of the given world and a
fresh TransactionManager. -/
def mkEngine (w : World) : EngineState :=
  { world := cloneWorld w, tm := { transaction := none } }

/-- ActionEngine.executeAction (engine.ts).  The value is an error exactly
when the uncaught startTransaction throw escapes (only possible if a previous
transaction was left in flight, which the engine itself never does);
otherwise it returns the new engine state, the ActionResult, and the list of
changes recorded in the transaction of this call (the change list of the
transaction object, exposed for specification purposes).  recordChange on the
freshly started transaction always succeeds and appends, so the recording is
modelled by accumulating the list directly. -/
def executeAction (s : EngineState) (pid : String) (a : Action) (turn : Int) :
    Except String (EngineState × ActionResult × List StateChange) :=
  match mapGet s.world pid with
  | none =>
    .ok (s, { success := false, world := s.world, changes := [], error := some "Invalid player" }, [])
  | some player =>
    if !(typeIs player "person") then
      .ok (s, { success := false, world := s.world, changes := [], error := some "Invalid player" }, [])
    else
      match startTransaction s.tm s.world turn with
      | .error m => .error m
      | .ok (tm1, txn) =>
        match validateAction s.world a player with
        | some err =>
          match TMrollback tm1 with
          | .error m => .error m
          | .ok (tm2, _) =>
            .ok ({ world := s.world, tm := tm2 },
              { success := false, world := s.world, changes := [], error := some err }, [])
        | none =>
          let ecs :=
            if 0 < a.energyCost then
              let pe := (energyVal player).getD 0
              [createEnergyChange pid pe (max 0 (pe - a.energyCost)) turn
                (actionTypeName a.type)]
            else []
          match recordActionChanges s.world player a turn with
          | .error m =>
            match TMrollback { transaction := some { txn with changes := ecs } } with
            | .error m2 => .error m2
            | .ok (tm2, rolledBackWorld) =>
              .ok ({ world := s.world, tm := tm2 },
                { success := false, world := rolledBackWorld, changes := [], error := some m }, ecs)
          | .ok acs =>
            let cs := ecs ++ acs
            let tmRec : TMState := { transaction := some { txn with changes := cs } }
            match TMcommit tmRec s.world with
            | .error m =>
              match TMrollback tmRec with
              | .error m2 => .error m2
              | .ok (tm2, rolledBackWorld) =>
                .ok ({ world := s.world, tm := tm2 },
                  { success := false, world := rolledBackWorld, changes := [], error := some m }, cs)
            | .ok (tm3, newWorld) =>
              .ok ({ world := newWorld, tm := tm3 },
                { success := true, world := newWorld,
                  changes := getChangeDescriptions tm3, error := none }, cs)

/-- ActionEngine.getPlayerState (engine.ts), as plain data. -/
def getPlayerState (w : World) (pid : String) :
    Option (Option JValue × Option JValue × Option JValue × Option JValue) :=
  match mapGet w pid with
  | none => none
  | some player =>
    if !(typeIs player "person") then none
    else some (jsGet player "location", jsGet player "health",
      jsGet player "energy", jsGet player "inventory")

/-- ActionEngine.getEntity (engine.ts). -/
def getEntity (w : World) (i : String) : Option JValue :=
  mapGet w i

/-- A TransactionManager with no in-flight transaction: either none was ever
started or the last one is terminal.  This holds for the engine constructor
and is re-established by every executeAction return. -/
def tmIdle (tm : TMState) : Bool :=
  match tm.transaction with
  | none => true
  | some t => t.committed || t.rolledBack

/-- Person invariant of one entity: a person entity carries numeric health
and energy within 0..100. -/
def personOK (e : JValue) : Bool :=
  !(typeIs e "person") ||
  ((match healthVal e with
    | some h => decide (0 ≤ h ∧ h ≤ 100)
    | none => false) &&
   (match energyVal e with
    | some x => decide (0 ≤ x ∧ x ≤ 100)
    | none => false))

/-- World invariant of claim C4: every person entity has health and energy
in 0..100. -/
def invHE (w : World) : Bool :=
  w.entities.all personOK

/-- A change the engine may record: either a non-vital single-segment field
or marker, an entity removal, or a health or energy write whose new value is
a number within 0..100. -/
def safeChange (c : StateChange) : Bool :=
  (c.field = "location" || c.field = "inventory" || c.field = "__conversation__" ||
    c.field = "__examined__" || c.field = "__remove_entity__") ||
  ((c.field = "health" || c.field = "energy") &&
    (match c.newValue with
     | .num n => decide (0 ≤ n ∧ n ≤ 100)
     | _ => false))

/-- Run a list of executeAction calls from an engine state, collecting every
change recorded along the way (also those of rolled-back transactions); an
uncaught throw, impossible from an idle manager, stops the run. -/
def runSteps (s : EngineState) : List (String × Action × Int) → EngineState × List StateChange
  | [] => (s, [])
  | (pid, a, t) :: rest =>
    match executeAction s pid a t with
    | .error _ => (s, [])
    | .ok (s2, _, tr) =>
      let (s3, trs) := runSteps s2 rest
      (s3, tr ++ trs)

/-- Well-formedness of one connections value: an object mapping target ids
to requirement objects, without duplicate keys, where a requires_item, when
present, is a nonempty string (the shape the data model prescribes; other
shapes make the source crash or behave on JS coercion minutiae outside the
model). -/
def connectionsOK (e : JValue) : Bool :=
  match jsGet e "connections" with
  | none => true
  | some (.obj fs) =>
    decide ((fs.map Prod.fst).Nodup) &&
    fs.all (fun kv =>
      match kv.2 with
      | .obj cfs =>
        (match jlookup cfs "requires_item" with
         | none => true
         | some (.str r) => r != ""
         | some _ => false)
      | _ => false)
  | some _ => false

/-- Structural well-formedness of a world: every entity has a string id,
ids are pairwise distinct, and every connections field is well-formed. -/
def wfWorld (w : World) : Bool :=
  w.entities.all (fun e => (eid? e).isSome) &&
  decide ((w.entities.filterMap eid?).Nodup) &&
  w.entities.all connectionsOK

/-- The resolution failure condition of generateValidActions, in the words
of the specification: the player id does not resolve to a person entity, or
that person's location does not resolve to a place entity. -/
def resolutionFails (w : World) (pid : String) : Bool :=
  match mapGet w pid with
  | none => true
  | some player =>
    !(typeIs player "person") ||
    (match (match asStrO (jsGet player "location") with
      | some l => mapGet w l
      | none => none) with
     | none => true
     | some loc => !(typeIs loc "place"))

/-- Success flag of an executeAction call, false when the call throws. -/
def execSuccess (s : EngineState) (pid : String) (a : Action) (turn : Int) : Bool :=
  match executeAction s pid a turn with
  | .ok (_, r, _) => r.success
  | .error _ => false

/-- The empty world, default value of reads from out-of-range heap cells. -/
def emptyWorld : World :=
  { world_name := "", world_description := "", starting_location := "", entities := [] }

/-- A heap of JS World object graphs.  The value model treats a JSON clone
as the identity on values; this instrumented model makes object identity
observable: every cell is one object graph, cloneWorld allocates a fresh
cell, and in-place mutation writes the cell it owns.  Claims about objects
never being mutated are settled against this model. -/
structure Heap where
  cells : List World
deriving Repr

/-- Allocate a fresh cell (a new object graph) holding the given value. -/
def hAlloc (h : Heap) (w : World) : Nat × Heap :=
  (h.cells.length, { cells := h.cells ++ [w] })

/-- Read the value of a cell. -/
def hRead (h : Heap) (a : Nat) : World :=
  (h.cells.get? a).getD emptyWorld

/-- Overwrite a cell in place. -/
def hWrite (h : Heap) (a : Nat) (w : World) : Heap :=
  { cells := h.cells.set a w }

/-- A transaction whose pre-snapshot is the address of the cell allocated by
the snapshot clone. -/
structure HTransaction where
  preAddr : Nat
  changes : List StateChange
  committed : Bool
  rolledBack : Bool
deriving Repr

/-- Engine state over the heap: the address of its working world and its
transaction manager. -/
structure HEngineState where
  worldAddr : Nat
  htm : Option HTransaction
deriving Repr

/-- An ActionResult over the heap: the world field is the address of the
object the caller receives. -/
structure HActionResult where
  success : Bool
  worldAddr : Nat
  changes : List String
  error : Option String
deriving Repr

/-- Whether a heap transaction is in flight. -/
def hActive : Option HTransaction → Bool
  | none => false
  | some t => !t.committed && !t.rolledBack

/-- The constructor over the heap: this.world = cloneWorld(world) allocates
a fresh cell with the value of the source cell. -/
def mkEngineH (h : Heap) (src : Nat) : HEngineState × Heap :=
  let (a, h2) := hAlloc h (hRead h src)
  ({ worldAddr := a, htm := none }, h2)

/-- The commit loop over the heap: each applyChange mutates the freshly
allocated clone cell in place; a thrown error leaves the partially mutated
cell behind (unreachable, exactly as in JS). -/
def applyChangesH (h : Heap) (a : Nat) : List StateChange → Heap × Option String
  | [] => (h, none)
  | c :: rest =>
    match applyChange (hRead h a) c with
    | .error m => (hWrite h a (hRead h a), some m)
    | .ok w2 => applyChangesH (hWrite h a w2) a rest

/-- executeAction over the heap, mirroring the pure model but making every
allocation and in-place write explicit: the snapshot clone at
startTransaction, the rollback clones, and the commit clone that receives
the change writes. -/
def executeActionH (h : Heap) (e : HEngineState) (pid : String) (a : Action) (turn : Int) :
    Except String (Heap × HEngineState × HActionResult) :=
  let w := hRead h e.worldAddr
  match mapGet w pid with
  | none =>
    .ok (h, e, { success := false, worldAddr := e.worldAddr, changes := [], error := some "Invalid player" })
  | some player =>
    if !(typeIs player "person") then
      .ok (h, e, { success := false, worldAddr := e.worldAddr, changes := [], error := some "Invalid player" })
    else
      if hActive e.htm then
        .error "Cannot start transaction: existing transaction not completed"
      else
        let (snapAddr, h1) := hAlloc h w
        let txn : HTransaction :=
          { preAddr := snapAddr, changes := [], committed := false, rolledBack := false }
        match validateAction w a player with
        | some err =>
          let (_, h2) := hAlloc h1 (hRead h1 snapAddr)
          .ok (h2, { e with htm := some { txn with rolledBack := true } },
            { success := false, worldAddr := e.worldAddr, changes := [], error := some err })
        | none =>
          let ecs :=
            if 0 < a.energyCost then
              let pe := (energyVal player).getD 0
              [createEnergyChange pid pe (max 0 (pe - a.energyCost)) turn
                (actionTypeName a.type)]
            else []
          match recordActionChanges w player a turn with
          | .error m =>
            let (rbAddr, h2) := hAlloc h1 (hRead h1 snapAddr)
            .ok (h2, { e with htm := some { txn with changes := ecs, rolledBack := true } },
              { success := false, worldAddr := rbAddr, changes := [], error := some m })
          | .ok acs =>
            let cs := ecs ++ acs
            let (na, h2) := hAlloc h1 (hRead h1 e.worldAddr)
            match applyChangesH h2 na cs with
            | (h3, some m) =>
              let (rbAddr, h4) := hAlloc h3 (hRead h3 snapAddr)
              .ok (h4, { e with htm := some { txn with changes := cs, rolledBack := true } },
                { success := false, worldAddr := rbAddr, changes := [], error := some m })
            | (h3, none) =>
              let tm2 : Option HTransaction := some { txn with changes := cs, committed := true }
              .ok (h3, { worldAddr := na, htm := tm2 },
                { success := true, worldAddr := na,
                  changes := cs.map (fun c => c.description), error := none })

/-- Agreement of two heaps on every address below a bound: the cells that
existed before a call are left untouched by it. -/
def heapAgreesBelow (h2 h1 : Heap) (n : Nat) : Prop :=
  ∀ i, i < n → h2.cells.get? i = h1.cells.get? i

/-- Shorthand for building entity objects in the sample worlds. -/
def pObj (fs : List (String × JValue)) : JValue := .obj fs

/-- The sample world of the engine test suite: a tavern connected to a
forest and to a locked room requiring a key, a hero, a bartender, a potion,
a key, and a sword. -/
def sampleWorld : World :=
  { world_name := "Test World"
    world_description := "A test world"
    starting_location := "tavern"
    entities := [
      pObj [("id", .str "tavern"), ("name", .str "The Tavern"), ("type", .str "place"),
        ("description", .str "A cozy tavern"),
        ("connections", pObj [("forest", pObj []),
          ("locked_room", pObj [("requires_item", .str "key")])])],
      pObj [("id", .str "forest"), ("name", .str "Dark Forest"), ("type", .str "place"),
        ("description", .str "A dark forest"),
        ("connections", pObj [("tavern", pObj []),
          ("mountain", pObj [("requires_health", .num 50)])])],
      pObj [("id", .str "locked_room"), ("name", .str "Locked Room"), ("type", .str "place"),
        ("description", .str "A mysterious locked room"),
        ("connections", pObj [("tavern", pObj [])])],
      pObj [("id", .str "mountain"), ("name", .str "Mountain Peak"), ("type", .str "place"),
        ("description", .str "A tall mountain"),
        ("connections", pObj [("forest", pObj [])])],
      pObj [("id", .str "player"), ("name", .str "Hero"), ("type", .str "person"),
        ("description", .str "The brave hero"), ("location", .str "tavern"),
        ("health", .num 100), ("energy", .num 100), ("inventory", .arr [])],
      pObj [("id", .str "npc"), ("name", .str "Bartender"), ("type", .str "person"),
        ("description", .str "A friendly bartender"), ("location", .str "tavern"),
        ("health", .num 100), ("energy", .num 100), ("inventory", .arr [])],
      pObj [("id", .str "potion"), ("name", .str "Health Potion"), ("type", .str "item"),
        ("description", .str "Restores health"), ("location", .str "tavern"),
        ("usable", .bool true), ("consumable", .bool true),
        ("effects", pObj [("health", .num 30), ("energy", .num 0)])],
      pObj [("id", .str "key"), ("name", .str "Rusty Key"), ("type", .str "item"),
        ("description", .str "An old rusty key"), ("location", .str "tavern"),
        ("usable", .bool false), ("consumable", .bool false)],
      pObj [("id", .str "sword"), ("name", .str "Iron Sword"), ("type", .str "item"),
        ("description", .str "A sturdy sword"), ("location", .str "forest"),
        ("usable", .bool true), ("consumable", .bool false),
        ("effects", pObj [("health", .num (-10)), ("energy", .num (-5))])]] }

/-- The sample world with the hero at health 90 holding the potion
(scenario C of the specification). -/
def sampleWorldPotion : World :=
  { sampleWorld with entities := sampleWorld.entities.map (fun e =>
      if eid? e = some "player" then
        pObj [("id", .str "player"), ("name", .str "Hero"), ("type", .str "person"),
          ("description", .str "The brave hero"), ("location", .str "tavern"),
          ("health", .num 90), ("energy", .num 100), ("inventory", .arr [.str "potion"])]
      else e) }

/-- A MOVE action to the locked room, as a caller could submit it directly. -/
def moveLockedRoom : Action :=
  { type := .MOVE, target := some "locked_room"
    description := "Travel to Locked Room", energyCost := 5 }

/-- A USE_ITEM action on the potion. -/
def usePotion : Action :=
  { type := .USE_ITEM, target := some "potion"
    description := "Use Health Potion", energyCost := 0 }

/-- A WAIT action as generated by generateValidActions. -/
def waitAction : Action :=
  { type := .WAIT, target := none, description := "Wait and observe", energyCost := 0 }

/-- The change of the C6 counterexample: field __new_entity__ with a present
but falsy newValue (the number 0) and the id of an existing entity. -/
def newEntityFalsyChange : StateChange :=
  { id := "", entityId := "potion", field := "__new_entity__"
    oldValue := .null, newValue := .num 0, turn := 1, description := "d" }

/-- Distinctness of the (string) ids of an entity list. -/
def nodupIds (l : List JValue) : Prop :=
  (l.filterMap eid?).Nodup

/-! ### Lemmas about ids, lookups and updates -/

theorem eid?_some_obj {e : JValue} {i : String} (h : eid? e = some i) :
    ∃ fs, e = JValue.obj fs := by
  cases e with
  | obj fs => exact ⟨fs, rfl⟩
  | null => exact absurd h (by intro hh; cases hh)
  | bool b => exact absurd h (by intro hh; cases hh)
  | num n => exact absurd h (by intro hh; cases hh)
  | str s => exact absurd h (by intro hh; rw [show eid? (JValue.str s) = none from rfl] at hh; cases hh)
  | arr xs => exact absurd h (by intro hh; rw [show eid? (JValue.arr xs) = none from rfl] at hh; cases hh)

theorem jlookup_jset (fs : List (String × JValue)) (k : String) (v : JValue)
    (k2 : String) :
    jlookup (jset fs k v) k2 = if k2 = k then some v else jlookup fs k2 := by
  induction fs with
  | nil =>
    by_cases h : k = k2
    · subst h; simp [jset, jlookup]
    · have h2 : ¬ k2 = k := fun hh => h hh.symm
      simp [jset, jlookup, h, h2]
  | cons p rest ih =>
    obtain ⟨k3, v3⟩ := p
    by_cases h3 : k3 = k
    · subst h3
      by_cases h : k3 = k2
      · subst h; simp [jset, jlookup]
      · have h2 : ¬ k2 = k3 := fun hh => h hh.symm
        simp [jset, jlookup, h, h2]
    · by_cases h : k3 = k2
      · subst h
        have h2 : ¬ k3 = k := h3
        simp only [jset, if_neg h2, jlookup, if_pos rfl]
        simp
      · have h2 : ¬ k2 = k3 := fun hh => h hh.symm
        simp [jset, jlookup, h3, h, h2, ih]

theorem lastById_cons (x : JValue) (rest : List JValue) (i : String) :
    lastById (x :: rest) i =
      match lastById rest i with
      | some e => some e
      | none => if eid? x = some i then some x else none := rfl

theorem findFirstById_cons (x : JValue) (rest : List JValue) (i : String) :
    findFirstById (x :: rest) i =
      if eid? x = some i then some (0, x)
      else
        match findFirstById rest i with
        | some (n, e) => some (n + 1, e)
        | none => none := rfl

theorem lastById_mem {l : List JValue} {i : String} {e : JValue}
    (h : lastById l i = some e) : e ∈ l ∧ eid? e = some i := by
  induction l with
  | nil => cases h
  | cons x rest ih =>
    rw [lastById_cons] at h
    cases hr : lastById rest i with
    | some y =>
      rw [hr] at h
      cases h
      have := ih hr
      exact ⟨List.mem_cons_of_mem _ this.1, this.2⟩
    | none =>
      rw [hr] at h
      by_cases hx : eid? x = some i
      · rw [if_pos hx] at h
        cases h
        exact ⟨List.mem_cons_self _ _, hx⟩
      · rw [if_neg hx] at h
        cases h

theorem lastById_eq_none_iff {l : List JValue} {i : String} :
    lastById l i = none ↔ ∀ e ∈ l, eid? e ≠ some i := by
  induction l with
  | nil => simp [lastById]
  | cons x rest ih =>
    rw [lastById_cons]
    cases hr : lastById rest i with
    | some y =>
      constructor
      · intro h; cases h
      · intro h
        have := lastById_mem hr
        exact absurd this.2 (h y (List.mem_cons_of_mem _ this.1))
    | none =>
      by_cases hx : eid? x = some i
      · rw [if_pos hx]
        constructor
        · intro h; cases h
        · intro h
          exact absurd hx (h x (List.mem_cons_self _ _))
      · rw [if_neg hx]
        constructor
        · intro _ e he
          rcases List.mem_cons.1 he with h1 | h2
          · subst h1; exact hx
          · exact (ih.1 hr) e h2
        · intro _; rfl

theorem findFirstById_eq_none_iff {l : List JValue} {i : String} :
    findFirstById l i = none ↔ ∀ e ∈ l, eid? e ≠ some i := by
  induction l with
  | nil => simp [findFirstById]
  | cons x rest ih =>
    rw [findFirstById_cons]
    by_cases hx : eid? x = some i
    · rw [if_pos hx]
      constructor
      · intro h; cases h
      · intro h
        exact absurd hx (h x (List.mem_cons_self _ _))
    · rw [if_neg hx]
      cases hr : findFirstById rest i with
      | some p =>
        obtain ⟨n, y⟩ := p
        constructor
        · intro h; cases h
        · intro h
          have hnone : findFirstById rest i = none :=
            ih.2 (fun e he => h e (List.mem_cons_of_mem _ he))
          rw [hnone] at hr
          cases hr
      | none =>
        constructor
        · intro _ e he
          rcases List.mem_cons.1 he with h1 | h2
          · subst h1; exact hx
          · exact (ih.1 hr) e h2
        · intro _; rfl

theorem findFirstById_get {l : List JValue} {i : String} {k : Nat} {e : JValue}
    (h : findFirstById l i = some (k, e)) :
    l.get? k = some e ∧ eid? e = some i := by
  induction l generalizing k with
  | nil => cases h
  | cons x rest ih =>
    rw [findFirstById_cons] at h
    by_cases hx : eid? x = some i
    · rw [if_pos hx] at h
      cases h
      exact ⟨rfl, hx⟩
    · rw [if_neg hx] at h
      cases hr : findFirstById rest i with
      | some p =>
        obtain ⟨n, y⟩ := p
        rw [hr] at h
        cases h
        have := ih hr
        exact ⟨by simpa using this.1, this.2⟩
      | none =>
        rw [hr] at h
        cases h

theorem nodupIds_cons_no_more {x : JValue} {rest : List JValue} {i : String}
    (hu : nodupIds (x :: rest)) (hx : eid? x = some i) :
    ∀ e ∈ rest, eid? e ≠ some i := by
  intro e he heq
  unfold nodupIds at hu
  rw [List.filterMap_cons, hx] at hu
  have : i ∈ rest.filterMap eid? := List.mem_filterMap.2 ⟨e, he, heq⟩
  exact (List.nodup_cons.1 hu).1 this

theorem nodupIds_of_cons {x : JValue} {rest : List JValue}
    (hu : nodupIds (x :: rest)) : nodupIds rest := by
  unfold nodupIds at hu ⊢
  rw [List.filterMap_cons] at hu
  cases hx : eid? x with
  | none => rw [hx] at hu; exact hu
  | some i => rw [hx] at hu; exact (List.nodup_cons.1 hu).2

theorem lastById_eq_findFirst {l : List JValue} {i : String} (hu : nodupIds l) :
    lastById l i = (findFirstById l i).map Prod.snd := by
  induction l with
  | nil => rfl
  | cons x rest ih =>
    rw [lastById_cons, findFirstById_cons]
    by_cases hx : eid? x = some i
    · have hnone : lastById rest i = none :=
        lastById_eq_none_iff.2 (nodupIds_cons_no_more hu hx)
      simp only [if_pos hx, hnone]
      rfl
    · have ihr := ih (nodupIds_of_cons hu)
      cases hf : findFirstById rest i with
      | some p =>
        obtain ⟨n, e⟩ := p
        rw [hf] at ihr
        simp only [if_neg hx, hf, ihr]
        rfl
      | none =>
        rw [hf] at ihr
        simp only [if_neg hx, hf, ihr]
        rfl

theorem filterMap_eid_set {l : List JValue} {i : String} {k : Nat} {e e2 : JValue}
    (hf : findFirstById l i = some (k, e)) (hid : eid? e2 = eid? e) :
    (l.set k e2).filterMap eid? = l.filterMap eid? := by
  induction l generalizing k with
  | nil => cases hf
  | cons x rest ih =>
    rw [findFirstById_cons] at hf
    by_cases hx : eid? x = some i
    · rw [if_pos hx] at hf
      cases hf
      rw [List.set_cons_zero, List.filterMap_cons, List.filterMap_cons, hid]
    · rw [if_neg hx] at hf
      cases hr : findFirstById rest i with
      | some p =>
        obtain ⟨n, y⟩ := p
        rw [hr] at hf
        cases hf
        rw [List.set_cons_succ, List.filterMap_cons, List.filterMap_cons, ih hr]
      | none =>
        rw [hr] at hf
        cases hf

theorem nodupIds_set {l : List JValue} {i : String} {k : Nat} {e e2 : JValue}
    (hu : nodupIds l) (hf : findFirstById l i = some (k, e)) (hid : eid? e2 = eid? e) :
    nodupIds (l.set k e2) := by
  unfold nodupIds
  rw [filterMap_eid_set hf hid]
  exact hu

theorem lastById_set {l : List JValue} {i : String} {k : Nat} {e e2 : JValue}
    (hu : nodupIds l) (hf : findFirstById l i = some (k, e)) (hid : eid? e2 = some i) :
    ∀ j, lastById (l.set k e2) j = if j = i then some e2 else lastById l j := by
  induction l generalizing k with
  | nil => cases hf
  | cons x rest ih =>
    intro j
    rw [findFirstById_cons] at hf
    by_cases hx : eid? x = some i
    · rw [if_pos hx] at hf
      have hke : k = 0 ∧ e = x := by
        injection hf with h1
        injection h1 with h2 h3
        exact ⟨h2.symm, h3.symm⟩
      obtain ⟨hk0, hex⟩ := hke
      subst hk0
      rw [List.set_cons_zero]
      have hnone : lastById rest i = none :=
        lastById_eq_none_iff.2 (nodupIds_cons_no_more hu hx)
      by_cases hj : j = i
      · subst hj
        rw [if_pos rfl, lastById_cons, hnone, if_pos hid]
      · rw [if_neg hj, lastById_cons, lastById_cons]
        have h2 : ¬ (eid? e2 = some j) := by
          rw [hid]; intro hh; cases hh; exact hj rfl
        have h3 : ¬ (eid? x = some j) := by
          rw [hx]; intro hh; cases hh; exact hj rfl
        cases lastById rest j with
        | some y => rfl
        | none => rw [if_neg h2, if_neg h3]
    · rw [if_neg hx] at hf
      cases hr : findFirstById rest i with
      | some p =>
        obtain ⟨n, y⟩ := p
        rw [hr] at hf
        cases hf
        rw [List.set_cons_succ, lastById_cons, lastById_cons]
        have ihj := ih (nodupIds_of_cons hu) hr j
        by_cases hj : j = i
        · subst hj
          rw [if_pos rfl] at ihj ⊢
          rw [ihj]
        · rw [if_neg hj] at ihj ⊢
          rw [ihj]
      | none =>
        rw [hr] at hf
        cases hf

theorem removeFirstById_sublist (l : List JValue) (i : String) :
    (removeFirstById l i).Sublist l := by
  induction l with
  | nil => simp [removeFirstById]
  | cons x rest ih =>
    unfold removeFirstById
    by_cases hx : eid? x = some i
    · rw [if_pos hx]
      exact List.Sublist.cons x (List.Sublist.refl rest)
    · rw [if_neg hx]
      exact List.Sublist.cons₂ x ih

theorem nodupIds_removeFirst {l : List JValue} {i : String} (hu : nodupIds l) :
    nodupIds (removeFirstById l i) :=
  List.Nodup.sublist ((removeFirstById_sublist l i).filterMap eid?) hu

theorem lastById_removeFirst {l : List JValue} {i : String} (hu : nodupIds l) :
    ∀ j, lastById (removeFirstById l i) j = if j = i then none else lastById l j := by
  induction l with
  | nil =>
    intro j
    by_cases hj : j = i <;> simp [removeFirstById, lastById, hj]
  | cons x rest ih =>
    intro j
    unfold removeFirstById
    by_cases hx : eid? x = some i
    · rw [if_pos hx]
      by_cases hj : j = i
      · subst hj
        rw [if_pos rfl]
        exact lastById_eq_none_iff.2 (nodupIds_cons_no_more hu hx)
      · rw [if_neg hj, lastById_cons]
        have h3 : ¬ (eid? x = some j) := by
          rw [hx]; intro hh; cases hh; exact hj rfl
        cases lastById rest j with
        | some y => rfl
        | none => rw [if_neg h3]
    · rw [if_neg hx, lastById_cons, lastById_cons]
      have ihj := ih (nodupIds_of_cons hu) j
      by_cases hj : j = i
      · subst hj
        rw [if_pos rfl] at ihj ⊢
        rw [ihj, if_neg hx]
      · rw [if_neg hj] at ihj ⊢
        rw [ihj]

theorem all_set {p : JValue → Bool} {l : List JValue} (h : l.all p = true)
    {k : Nat} {x : JValue} (hx : p x = true) : (l.set k x).all p = true := by
  induction l generalizing k with
  | nil => simp [List.set]
  | cons y rest ih =>
    cases k with
    | zero =>
      rw [List.set_cons_zero]
      simp only [List.all_cons, Bool.and_eq_true] at h ⊢
      exact ⟨hx, h.2⟩
    | succ n =>
      rw [List.set_cons_succ]
      simp only [List.all_cons, Bool.and_eq_true] at h ⊢
      exact ⟨h.1, ih h.2⟩

theorem all_removeFirst {p : JValue → Bool} {l : List JValue} {i : String}
    (h : l.all p = true) : (removeFirstById l i).all p = true := by
  rw [List.all_eq_true] at h ⊢
  intro e he
  exact h e ((removeFirstById_sublist l i).subset he)

/-! ### Lemmas about applyChange and the health and energy invariant -/

theorem jsGet_obj (fs : List (String × JValue)) (k : String) :
    jsGet (.obj fs) k = jlookup fs k := rfl

theorem applyChange_remove {w : World} {c : StateChange}
    (h : c.field = "__remove_entity__") :
    applyChange w c = .ok { w with entities := removeFirstById w.entities c.entityId } := by
  unfold applyChange
  rw [if_pos h]

theorem applyChange_new_truthy {w : World} {c : StateChange}
    (h1 : ¬ (c.field = "__remove_entity__")) (h2 : c.field = "__new_entity__")
    (h3 : truthy c.newValue = true) :
    applyChange w c = .ok { w with entities := w.entities ++ [c.newValue] } := by
  unfold applyChange
  rw [if_neg h1]
  have hcond : (c.field = "__new_entity__" && truthy c.newValue) = true := by
    simp [h2, h3]
  rw [if_pos hcond]

theorem applyChange_generic {w : World} {c : StateChange}
    (h1 : ¬ (c.field = "__remove_entity__"))
    (h2 : (c.field = "__new_entity__" && truthy c.newValue) = false) :
    applyChange w c =
      match findFirstById w.entities c.entityId with
      | none => .error ("Entity not found: \"" ++ c.entityId ++ "\"")
      | some (idx, e) =>
        match setPath e (splitDots c.field) c.newValue c.field with
        | .error m => .error m
        | .ok e2 => .ok { w with entities := w.entities.set idx e2 } := by
  unfold applyChange
  rw [if_neg h1, if_neg (by rw [h2]; intro hh; cases hh)]

theorem applyChange_single {w : World} {c : StateChange} {k : Nat}
    {fs : List (String × JValue)}
    (h1 : ¬ (c.field = "__remove_entity__"))
    (h2 : (c.field = "__new_entity__" && truthy c.newValue) = false)
    (hsplit : splitDots c.field = [c.field])
    (hfind : findFirstById w.entities c.entityId = some (k, .obj fs)) :
    applyChange w c =
      .ok { w with entities := w.entities.set k (.obj (jset fs c.field c.newValue)) } := by
  rw [applyChange_generic h1 h2, hfind, hsplit]
  rfl

theorem applyChange_notFound {w : World} {c : StateChange}
    (h1 : ¬ (c.field = "__remove_entity__"))
    (h2 : (c.field = "__new_entity__" && truthy c.newValue) = false)
    (hfind : findFirstById w.entities c.entityId = none) :
    applyChange w c = .error ("Entity not found: \"" ++ c.entityId ++ "\"") := by
  rw [applyChange_generic h1 h2, hfind]

theorem typeIs_jset {fs : List (String × JValue)} {f : String} {v : JValue}
    (t : String) (hft : ¬ ("type" = f)) :
    typeIs (.obj (jset fs f v)) t = typeIs (.obj fs) t := by
  unfold typeIs
  rw [jsGet_obj, jsGet_obj, jlookup_jset, if_neg hft]

theorem healthVal_jset_other {fs : List (String × JValue)} {f : String} {v : JValue}
    (hfh : ¬ ("health" = f)) :
    healthVal (.obj (jset fs f v)) = healthVal (.obj fs) := by
  unfold healthVal
  rw [jsGet_obj, jsGet_obj, jlookup_jset, if_neg hfh]

theorem healthVal_jset_self {fs : List (String × JValue)} {v : JValue} :
    healthVal (.obj (jset fs "health" v)) = jsNumO (some v) := by
  unfold healthVal
  rw [jsGet_obj, jlookup_jset, if_pos rfl]

theorem energyVal_jset_other {fs : List (String × JValue)} {f : String} {v : JValue}
    (hfe : ¬ ("energy" = f)) :
    energyVal (.obj (jset fs f v)) = energyVal (.obj fs) := by
  unfold energyVal
  rw [jsGet_obj, jsGet_obj, jlookup_jset, if_neg hfe]

theorem energyVal_jset_self {fs : List (String × JValue)} {v : JValue} :
    energyVal (.obj (jset fs "energy" v)) = jsNumO (some v) := by
  unfold energyVal
  rw [jsGet_obj, jlookup_jset, if_pos rfl]

theorem personOK_parts {e : JValue} (ht : typeIs e "person" = true)
    (hok : personOK e = true) :
    (match healthVal e with
     | some h => decide (0 ≤ h ∧ h ≤ 100)
     | none => false) = true ∧
    (match energyVal e with
     | some x => decide (0 ≤ x ∧ x ≤ 100)
     | none => false) = true := by
  unfold personOK at hok
  rw [ht] at hok
  simpa using hok

theorem personOK_build {e : JValue}
    (h : typeIs e "person" = true →
      (match healthVal e with
       | some h => decide (0 ≤ h ∧ h ≤ 100)
       | none => false) = true ∧
      (match energyVal e with
       | some x => decide (0 ≤ x ∧ x ≤ 100)
       | none => false) = true) :
    personOK e = true := by
  unfold personOK
  cases ht : typeIs e "person" with
  | false => rfl
  | true =>
    have hp := h ht
    rw [hp.1, hp.2]
    rfl

theorem personOK_jset_safe {fs : List (String × JValue)} {c : StateChange}
    (hok : personOK (.obj fs) = true) (hs : safeChange c = true)
    (hnr : ¬ (c.field = "__remove_entity__")) :
    personOK (.obj (jset fs c.field c.newValue)) = true := by
  obtain ⟨cid, cent, cf, cov, cnv, ct, cd⟩ := c
  simp only at hnr ⊢
  unfold safeChange at hs
  simp only [Bool.or_eq_true, Bool.and_eq_true, decide_eq_true_eq] at hs
  rcases hs with (((((hf | hf) | hf) | hf) | hf) | ⟨hf2, hv⟩)
  · subst hf
    apply personOK_build
    intro ht
    rw [healthVal_jset_other (by decide), energyVal_jset_other (by decide)]
    exact personOK_parts (by rw [typeIs_jset _ (by decide)] at ht; exact ht) hok
  · subst hf
    apply personOK_build
    intro ht
    rw [healthVal_jset_other (by decide), energyVal_jset_other (by decide)]
    exact personOK_parts (by rw [typeIs_jset _ (by decide)] at ht; exact ht) hok
  · subst hf
    apply personOK_build
    intro ht
    rw [healthVal_jset_other (by decide), energyVal_jset_other (by decide)]
    exact personOK_parts (by rw [typeIs_jset _ (by decide)] at ht; exact ht) hok
  · subst hf
    apply personOK_build
    intro ht
    rw [healthVal_jset_other (by decide), energyVal_jset_other (by decide)]
    exact personOK_parts (by rw [typeIs_jset _ (by decide)] at ht; exact ht) hok
  · exact absurd hf hnr
  · obtain ⟨n, hn, hrange⟩ : ∃ n, cnv = JValue.num n ∧ 0 ≤ n ∧ n ≤ 100 := by
      cases hcv : cnv <;> rw [hcv] at hv <;> try cases hv
      case num m => exact ⟨m, rfl, by simpa using hv⟩
    subst hn
    rcases hf2 with hf | hf
    · subst hf
      apply personOK_build
      intro ht
      rw [healthVal_jset_self, energyVal_jset_other (by decide)]
      have hparts := personOK_parts (by rw [typeIs_jset _ (by decide)] at ht; exact ht) hok
      refine ⟨?_, hparts.2⟩
      simp only [jsNumO]
      simp [hrange.1, hrange.2]
    · subst hf
      apply personOK_build
      intro ht
      rw [healthVal_jset_other (by decide), energyVal_jset_self]
      have hparts := personOK_parts (by rw [typeIs_jset _ (by decide)] at ht; exact ht) hok
      refine ⟨hparts.1, ?_⟩
      simp only [jsNumO]
      simp [hrange.1, hrange.2]

theorem safeChange_not_new {c : StateChange} (hs : safeChange c = true) :
    (c.field = "__new_entity__" && truthy c.newValue) = false := by
  obtain ⟨cid, cent, cf, cov, cnv, ct, cd⟩ := c
  unfold safeChange at hs
  simp only [Bool.or_eq_true, Bool.and_eq_true, decide_eq_true_eq] at hs
  simp only
  have hne : ¬ (cf = "__new_entity__") := by
    rcases hs with (((((hf | hf) | hf) | hf) | hf) | ⟨hf2, _⟩)
    · subst hf; decide
    · subst hf; decide
    · subst hf; decide
    · subst hf; decide
    · subst hf; decide
    · rcases hf2 with hf | hf
      · subst hf; decide
      · subst hf; decide
  simp [hne]

theorem safeChange_split {c : StateChange} (hs : safeChange c = true)
    (hnr : ¬ (c.field = "__remove_entity__")) :
    splitDots c.field = [c.field] := by
  obtain ⟨cid, cent, cf, cov, cnv, ct, cd⟩ := c
  simp only at hnr ⊢
  unfold safeChange at hs
  simp only [Bool.or_eq_true, Bool.and_eq_true, decide_eq_true_eq] at hs
  rcases hs with (((((hf | hf) | hf) | hf) | hf) | ⟨hf2, _⟩)
  · subst hf; rfl
  · subst hf; rfl
  · subst hf; rfl
  · subst hf; rfl
  · exact absurd hf hnr
  · rcases hf2 with hf | hf
    · subst hf; rfl
    · subst hf; rfl

theorem invHE_applyChange {w w2 : World} {c : StateChange}
    (hinv : invHE w = true) (hs : safeChange c = true)
    (happ : applyChange w c = .ok w2) : invHE w2 = true := by
  by_cases hrem : c.field = "__remove_entity__"
  · rw [applyChange_remove hrem] at happ
    cases happ
    exact all_removeFirst hinv
  · have h2 := safeChange_not_new hs
    have hsplit := safeChange_split hs hrem
    cases hfind : findFirstById w.entities c.entityId with
    | none =>
      rw [applyChange_notFound hrem h2 hfind] at happ
      cases happ
    | some p =>
      obtain ⟨k, e⟩ := p
      obtain ⟨fs, hfs⟩ := eid?_some_obj (findFirstById_get hfind).2
      subst hfs
      rw [applyChange_single hrem h2 hsplit hfind] at happ
      cases happ
      have hmem : JValue.obj fs ∈ w.entities :=
        List.get?_mem (findFirstById_get hfind).1
      have hok : personOK (.obj fs) = true :=
        List.all_eq_true.1 hinv _ hmem
      exact all_set hinv (personOK_jset_safe hok hs hrem)

theorem invHE_applyChanges {w w2 : World} {cs : List StateChange}
    (hinv : invHE w = true) (hs : cs.all safeChange = true)
    (happ : applyChanges w cs = .ok w2) : invHE w2 = true := by
  induction cs generalizing w with
  | nil =>
    unfold applyChanges at happ
    cases happ
    exact hinv
  | cons c rest ih =>
    unfold applyChanges at happ
    simp only [List.all_cons, Bool.and_eq_true] at hs
    cases h1 : applyChange w c with
    | error m => rw [h1] at happ; cases happ
    | ok wmid =>
      rw [h1] at happ
      exact ih (invHE_applyChange hinv hs.1 h1) hs.2 happ

/-! ### Safety of the changes the engine records -/

theorem personOK_health_bounds {p : JValue} (ht : typeIs p "person" = true)
    (hok : personOK p = true) : ∃ x, healthVal p = some x ∧ 0 ≤ x ∧ x ≤ 100 := by
  have hh := (personOK_parts ht hok).1
  cases he : healthVal p with
  | none => rw [he] at hh; cases hh
  | some x =>
    rw [he] at hh
    exact ⟨x, rfl, by simpa using hh⟩

theorem personOK_energy_bounds {p : JValue} (ht : typeIs p "person" = true)
    (hok : personOK p = true) : ∃ x, energyVal p = some x ∧ 0 ≤ x ∧ x ≤ 100 := by
  have hh := (personOK_parts ht hok).2
  cases he : energyVal p with
  | none => rw [he] at hh; cases hh
  | some x =>
    rw [he] at hh
    exact ⟨x, rfl, by simpa using hh⟩

theorem safeChange_energy {pid : String} {oldE newE turn : Int} {reason : String}
    (h0 : 0 ≤ newE) (h1 : newE ≤ 100) :
    safeChange (createEnergyChange pid oldE newE turn reason) = true := by
  unfold safeChange createEnergyChange
  simp [h0, h1]

theorem safeChange_health {pid : String} {oldH newH turn : Int} {reason : String}
    (h0 : 0 ≤ newH) (h1 : newH ≤ 100) :
    safeChange (createHealthChange pid oldH newH turn reason) = true := by
  unfold safeChange createHealthChange
  simp [h0, h1]

theorem safeChange_of_field {c : StateChange}
    (h : c.field = "location" ∨ c.field = "inventory" ∨ c.field = "__conversation__" ∨
      c.field = "__examined__" ∨ c.field = "__remove_entity__") :
    safeChange c = true := by
  unfold safeChange
  rcases h with h | h | h | h | h <;> simp [h]

theorem validateAction_energy {w : World} {a : Action} {p : JValue}
    (h : validateAction w a p = none) :
    optLt (energyVal p) a.energyCost = false := by
  unfold validateAction at h
  cases hlt : optLt (energyVal p) a.energyCost with
  | false => rfl
  | true => rw [hlt] at h; simp at h

theorem energyCost_change_safe {p : JValue} {pid : String} {cost turn : Int}
    {reason : String} (hcost : 0 < cost)
    (ht : typeIs p "person" = true) (hok : personOK p = true)
    (hnl : optLt (energyVal p) cost = false) :
    safeChange (createEnergyChange pid ((energyVal p).getD 0)
      (max 0 ((energyVal p).getD 0 - cost)) turn reason) = true := by
  obtain ⟨x, hx, hx0, hx100⟩ := personOK_energy_bounds ht hok
  rw [hx] at hnl ⊢
  unfold optLt at hnl
  have hnl2 : decide (x < cost) = false := hnl
  have hge := of_decide_eq_false hnl2
  simp only [Option.getD_some]
  apply safeChange_energy
  · exact le_max_left 0 _
  · omega

theorem recordActionChanges_safe {w : World} {player : JValue} {a : Action}
    {turn : Int} {acs : List StateChange}
    (ht : typeIs player "person" = true) (hok : personOK player = true)
    (hrec : recordActionChanges w player a turn = .ok acs) :
    acs.all safeChange = true := by
  unfold recordActionChanges at hrec
  cases hat : a.type with
  | MOVE =>
    rw [hat] at hrec
    cases hrec
    simp only [recordMoveChanges, List.all_cons, List.all_nil, Bool.and_eq_true]
    exact ⟨safeChange_of_field (Or.inl rfl), trivial⟩
  | TALK =>
    rw [hat] at hrec
    cases hrec
    simp only [recordTalkChanges, List.all_cons, List.all_nil, Bool.and_eq_true]
    exact ⟨safeChange_of_field (Or.inr (Or.inr (Or.inl rfl))), trivial⟩
  | TAKE_ITEM =>
    rw [hat] at hrec
    unfold recordTakeItemChanges at hrec
    cases hit : (match a.target with | some t => mapGet w t | none => none) with
    | none => rw [hit] at hrec; cases hrec
    | some item =>
      rw [hit] at hrec
      cases hrec
      simp only [List.all_cons, List.all_nil, Bool.and_eq_true]
      refine ⟨safeChange_of_field (Or.inl rfl), ?_, trivial⟩
      exact safeChange_of_field (Or.inr (Or.inl rfl))
  | DROP_ITEM =>
    rw [hat] at hrec
    unfold recordDropItemChanges at hrec
    cases hit : (match a.target with | some t => mapGet w t | none => none) with
    | none => rw [hit] at hrec; cases hrec
    | some item =>
      rw [hit] at hrec
      cases hrec
      simp only [List.all_cons, List.all_nil, Bool.and_eq_true]
      refine ⟨safeChange_of_field (Or.inl rfl), ?_, trivial⟩
      exact safeChange_of_field (Or.inr (Or.inl rfl))
  | USE_ITEM =>
    rw [hat] at hrec
    replace hrec : recordUseItemChanges w player a turn = Except.ok acs := hrec
    unfold recordUseItemChanges at hrec
    cases hit : (match a.target with | some t => mapGet w t | none => none) with
    | none => rw [hit] at hrec; cases hrec
    | some item =>
      simp only [hit] at hrec
      cases hti : typeIs item "item" with
      | false => simp only [hti] at hrec; simp at hrec
      | true =>
        simp only [hti] at hrec
        rw [if_neg (by decide)] at hrec
        cases hrec
        rw [List.all_append, List.all_append, Bool.and_eq_true, Bool.and_eq_true]
        obtain ⟨hx, hx', hx0, hx100⟩ := personOK_health_bounds ht hok
        obtain ⟨ex, ex', ex0, ex100⟩ := personOK_energy_bounds ht hok
        refine ⟨⟨?_, ?_⟩, ?_⟩
        · cases htr : truthyO (jsGet ((jsGet item "effects").getD .null) "health") with
          | false => simp [htr]
          | true =>
            simp only [htr, eq_self_iff_true, if_true, List.all_cons, List.all_nil,
              Bool.and_eq_true, and_true]
            apply safeChange_health
            · omega
            · have h1 : min 100 (((healthVal player).getD 0) +
                  ((jsNumO (jsGet ((jsGet item "effects").getD .null) "health")).getD 0)) ≤ 100 :=
                min_le_left _ _
              omega
        · cases htr : truthyO (jsGet ((jsGet item "effects").getD .null) "energy") with
          | false => simp [htr]
          | true =>
            simp only [htr, eq_self_iff_true, if_true, List.all_cons, List.all_nil,
              Bool.and_eq_true, and_true]
            apply safeChange_energy
            · exact le_max_left 0 _
            · have h1 : min 100 (((energyVal player).getD 0) +
                  ((jsNumO (jsGet ((jsGet item "effects").getD .null) "energy")).getD 0)) ≤ 100 :=
                min_le_left _ _
              omega
        · cases htr : truthyO (jsGet item "consumable") with
          | false => simp [htr]
          | true =>
            simp only [htr, eq_self_iff_true, if_true, List.all_cons, List.all_nil,
              Bool.and_eq_true, and_true]
            exact ⟨safeChange_of_field (Or.inr (Or.inl rfl)),
              safeChange_of_field (Or.inr (Or.inr (Or.inr (Or.inr rfl))))⟩
  | EXAMINE =>
    rw [hat] at hrec
    unfold recordExamineChanges at hrec
    cases hit : (match a.target with | some t => mapGet w t | none => none) with
    | none => rw [hit] at hrec; cases hrec
    | some tg =>
      rw [hit] at hrec
      cases hrec
      simp only [List.all_cons, List.all_nil, Bool.and_eq_true]
      exact ⟨safeChange_of_field (Or.inr (Or.inr (Or.inr (Or.inl rfl)))), trivial⟩
  | REST =>
    rw [hat] at hrec
    cases hrec
    simp only [recordRestChanges, List.all_cons, List.all_nil, Bool.and_eq_true]
    obtain ⟨ex, ex', ex0, ex100⟩ := personOK_energy_bounds ht hok
    refine ⟨?_, trivial⟩
    apply safeChange_energy
    · rw [ex']
      simp only [Option.getD_some]
      omega
    · exact min_le_left _ _
  | WAIT =>
    rw [hat] at hrec
    cases hrec
    rfl
  | EXPLORE =>
    rw [hat] at hrec
    cases hrec
    rfl

/-! ### Structural lemmas about executeAction -/

theorem startTransaction_idle {tm : TMState} {w : World} {turn : Int}
    (h : tmIdle tm = true) :
    ∃ txn, startTransaction tm w turn = .ok ({ transaction := some txn }, txn) ∧
      txn.committed = false ∧ txn.rolledBack = false ∧ txn.changes = [] ∧
      txn.preSnapshot.world = w := by
  obtain ⟨tr0⟩ := tm
  cases tr0 with
  | none => exact ⟨_, rfl, rfl, rfl, rfl, rfl⟩
  | some t =>
    obtain ⟨tid, tpre, tch, tcom, trb⟩ := t
    replace h : (tcom || trb) = true := h
    cases tcom with
    | true => exact ⟨_, rfl, rfl, rfl, rfl, rfl⟩
    | false =>
      cases trb with
      | true => exact ⟨_, rfl, rfl, rfl, rfl, rfl⟩
      | false => exact absurd h (by decide)

theorem TMrollback_plain {txn : StateTransaction} (hc : txn.committed = false) :
    TMrollback { transaction := some txn } =
      .ok ({ transaction := some { txn with rolledBack := true } },
        cloneWorld txn.preSnapshot.world) := by
  obtain ⟨tid, tpre, tch, tcom, trb⟩ := txn
  simp only at hc
  subst hc
  rfl

theorem TMrollback_set {txn : StateTransaction} {cs : List StateChange}
    (hc : txn.committed = false) :
    TMrollback { transaction := some { txn with changes := cs } } =
      .ok ({ transaction := some { txn with changes := cs, rolledBack := true } },
        cloneWorld txn.preSnapshot.world) := by
  obtain ⟨tid, tpre, tch, tcom, trb⟩ := txn
  simp only at hc
  subst hc
  rfl

theorem TMcommit_set {txn : StateTransaction} {w : World} {cs : List StateChange}
    (hc : txn.committed = false) (hr : txn.rolledBack = false) :
    TMcommit { transaction := some { txn with changes := cs } } w =
      (match applyChanges (cloneWorld w) cs with
      | .error m => .error m
      | .ok w2 =>
        .ok ({ transaction := some { txn with changes := cs, committed := true } }, w2)) := by
  obtain ⟨tid, tpre, tch, tcom, trb⟩ := txn
  simp only at hc hr
  subst hc
  subst hr
  rfl

theorem executeAction_total (s : EngineState) (pid : String) (a : Action) (turn : Int)
    (hidle : tmIdle s.tm = true) :
    ∃ s2 r tr, executeAction s pid a turn = .ok (s2, r, tr) ∧
      tmIdle s2.tm = true ∧
      (r.success = false → r.world = s.world ∧ r.changes = [] ∧ s2.world = s.world) ∧
      (r.success = true → applyChanges s.world tr = .ok s2.world ∧ r.world = s2.world) ∧
      (invHE s.world = true → tr.all safeChange = true) := by
  unfold executeAction
  cases hp : mapGet s.world pid with
  | none =>
    dsimp only
    refine ⟨s, _, [], rfl, hidle, ?_, ?_, ?_⟩
    · intro _; exact ⟨rfl, rfl, rfl⟩
    · intro h; cases h
    · intro _; rfl
  | some player =>
    dsimp only
    have hok : invHE s.world = true → personOK player = true := fun hinv =>
      List.all_eq_true.1 hinv player (lastById_mem hp).1
    cases htp : typeIs player "person" with
    | false =>
      rw [if_pos (by rfl)]
      refine ⟨s, _, [], rfl, hidle, ?_, ?_, ?_⟩
      · intro _; exact ⟨rfl, rfl, rfl⟩
      · intro h; cases h
      · intro _; rfl
    | true =>
      rw [if_neg (by decide)]
      obtain ⟨txn, hst, hc, hr, hch, hpre⟩ :=
        (startTransaction_idle hidle :
          ∃ txn, startTransaction s.tm s.world turn =
            .ok ({ transaction := some txn }, txn) ∧
          txn.committed = false ∧ txn.rolledBack = false ∧ txn.changes = [] ∧
          txn.preSnapshot.world = s.world)
      rw [hst]
      dsimp only
      cases hv : validateAction s.world a player with
      | some err =>
        dsimp only
        rw [TMrollback_plain hc]
        dsimp only
        refine ⟨_, _, [], rfl, ?_, ?_, ?_, ?_⟩
        · simp [tmIdle]
        · intro _; exact ⟨rfl, rfl, rfl⟩
        · intro h; cases h
        · intro _; rfl
      | none =>
        dsimp only
        cases hrec : recordActionChanges s.world player a turn with
        | error m =>
          dsimp only
          rw [TMrollback_set hc]
          dsimp only
          refine ⟨_, _, _, rfl, ?_, ?_, ?_, ?_⟩
          · simp [tmIdle]
          · intro _
            refine ⟨?_, rfl, rfl⟩
            exact hpre
          · intro h; cases h
          · intro hinv
            by_cases hcost : 0 < a.energyCost
            · rw [if_pos hcost]
              simp only [List.all_cons, List.all_nil, Bool.and_eq_true, and_true]
              exact energyCost_change_safe hcost htp (hok hinv) (validateAction_energy hv)
            · rw [if_neg hcost]
              rfl
        | ok acs =>
          dsimp only
          rw [TMcommit_set hc hr]
          cases happ : applyChanges (cloneWorld s.world)
              ((if 0 < a.energyCost then
                  [createEnergyChange pid ((energyVal player).getD 0)
                    (max 0 ((energyVal player).getD 0 - a.energyCost)) turn
                    (actionTypeName a.type)]
                else []) ++ acs) with
          | error m =>
            dsimp only
            rw [TMrollback_set hc]
            dsimp only
            refine ⟨_, _, _, rfl, ?_, ?_, ?_, ?_⟩
            · simp [tmIdle]
            · intro _
              refine ⟨?_, rfl, rfl⟩
              exact hpre
            · intro h; cases h
            · intro hinv
              rw [List.all_append, Bool.and_eq_true]
              refine ⟨?_, recordActionChanges_safe htp (hok hinv) hrec⟩
              by_cases hcost : 0 < a.energyCost
              · rw [if_pos hcost]
                simp only [List.all_cons, List.all_nil, Bool.and_eq_true, and_true]
                exact energyCost_change_safe hcost htp (hok hinv) (validateAction_energy hv)
              · rw [if_neg hcost]
                rfl
          | ok newWorld =>
            dsimp only
            refine ⟨_, _, _, rfl, ?_, ?_, ?_, ?_⟩
            · simp [tmIdle]
            · intro h; cases h
            · intro _
              exact ⟨happ, rfl⟩
            · intro hinv
              rw [List.all_append, Bool.and_eq_true]
              refine ⟨?_, recordActionChanges_safe htp (hok hinv) hrec⟩
              by_cases hcost : 0 < a.energyCost
              · rw [if_pos hcost]
                simp only [List.all_cons, List.all_nil, Bool.and_eq_true, and_true]
                exact energyCost_change_safe hcost htp (hok hinv) (validateAction_energy hv)
              · rw [if_neg hcost]
                rfl

theorem removeFirstById_of_absent {l : List JValue} {i : String}
    (h : ∀ e ∈ l, eid? e ≠ some i) : removeFirstById l i = l := by
  induction l with
  | nil => rfl
  | cons x rest ih =>
    unfold removeFirstById
    rw [if_neg (h x (List.mem_cons_self _ _))]
    rw [ih (fun e he => h e (List.mem_cons_of_mem _ he))]

theorem findFirstById_set {l : List JValue} {i : String} {k : Nat} {e e2 : JValue}
    (hf : findFirstById l i = some (k, e)) (hid : eid? e2 = eid? e) :
    findFirstById (l.set k e2) i = some (k, e2) := by
  induction l generalizing k with
  | nil => cases hf
  | cons x rest ih =>
    rw [findFirstById_cons] at hf
    by_cases hx : eid? x = some i
    · rw [if_pos hx] at hf
      have hke : k = 0 ∧ e = x := by
        injection hf with h1
        injection h1 with h2 h3
        exact ⟨h2.symm, h3.symm⟩
      obtain ⟨hk0, hex⟩ := hke
      subst hk0
      rw [List.set_cons_zero, findFirstById_cons, if_pos (by rw [hid, hex]; exact hx)]
    · rw [if_neg hx] at hf
      cases hr : findFirstById rest i with
      | some p =>
        obtain ⟨n, y⟩ := p
        rw [hr] at hf
        cases hf
        rw [List.set_cons_succ, findFirstById_cons, if_neg hx, ih hr]
      | none =>
        rw [hr] at hf
        cases hf

theorem eid?_jset_other {fs : List (String × JValue)} {f : String} {v : JValue}
    (hf : ¬ ("id" = f)) : eid? (.obj (jset fs f v)) = eid? (.obj fs) := by
  unfold eid?
  rw [jsGet_obj, jsGet_obj, jlookup_jset, if_neg hf]

theorem jlookup_mem_unique {fs : List (String × JValue)} {t : String} {conn v : JValue}
    (hkeys : (fs.map Prod.fst).Nodup) (hl : jlookup fs t = some conn)
    {k : String} (hmem : (k, v) ∈ fs) (hk : k = t) : v = conn := by
  induction fs with
  | nil => cases hmem
  | cons p rest ih =>
    obtain ⟨k1, v1⟩ := p
    rw [List.map_cons, List.nodup_cons] at hkeys
    unfold jlookup at hl
    rcases List.mem_cons.1 hmem with h1 | h2
    · injection h1 with hkk hvv
      subst hkk
      subst hvv
      subst hk
      rw [if_pos rfl] at hl
      exact Option.some.inj hl
    · subst hk
      by_cases hkt : k1 = k
      · subst hkt
        exact absurd (List.mem_map.2 ⟨(k1, v), h2, rfl⟩) hkeys.1
      · rw [if_neg hkt] at hl
        exact ih hkeys.2 hl h2

theorem jlookup_of_mem {fs : List (String × JValue)} {t : String} {v : JValue}
    (hkeys : (fs.map Prod.fst).Nodup) (hmem : (t, v) ∈ fs) :
    jlookup fs t = some v := by
  induction fs with
  | nil => cases hmem
  | cons p rest ih =>
    obtain ⟨k1, v1⟩ := p
    rw [List.map_cons, List.nodup_cons] at hkeys
    unfold jlookup
    rcases List.mem_cons.1 hmem with h1 | h2
    · injection h1 with hkk hvv
      subst hkk
      subst hvv
      rw [if_pos rfl]
    · by_cases hkt : k1 = t
      · subst hkt
        exact absurd (List.mem_map.2 ⟨(k1, v), h2, rfl⟩) hkeys.1
      · rw [if_neg hkt]
        exact ih hkeys.2 h2

theorem executeAction_success (s : EngineState) (pid : String) (a : Action) (turn : Int)
    {player : JValue} {ecs acs : List StateChange} {w2 : World}
    (hidle : tmIdle s.tm = true)
    (hp : mapGet s.world pid = some player)
    (htp : typeIs player "person" = true)
    (hv : validateAction s.world a player = none)
    (hecs : (if 0 < a.energyCost then
        [createEnergyChange pid ((energyVal player).getD 0)
          (max 0 ((energyVal player).getD 0 - a.energyCost)) turn (actionTypeName a.type)]
      else []) = ecs)
    (hrec : recordActionChanges s.world player a turn = .ok acs)
    (happ : applyChanges (cloneWorld s.world) (ecs ++ acs) = .ok w2) :
    ∃ tm2, executeAction s pid a turn =
      .ok ({ world := w2, tm := tm2 },
        { success := true, world := w2,
          changes := (ecs ++ acs).map (fun c => c.description), error := none },
        ecs ++ acs) := by
  unfold executeAction
  rw [hp]
  dsimp only
  rw [if_neg (by rw [htp]; decide)]
  obtain ⟨txn, hst, hc, hr, hch, hpre⟩ :=
    (startTransaction_idle hidle :
      ∃ txn, startTransaction s.tm s.world turn =
        .ok ({ transaction := some txn }, txn) ∧
      txn.committed = false ∧ txn.rolledBack = false ∧ txn.changes = [] ∧
      txn.preSnapshot.world = s.world)
  rw [hst]
  dsimp only
  rw [hv]
  dsimp only
  rw [hecs, hrec]
  dsimp only
  rw [TMcommit_set hc hr, happ]
  exact ⟨_, rfl⟩

/-! ### Claim theorems -/

/-- C1: for every player id, action, and turn, if executeAction returns with
success false, the returned world equals (deep-equals, in the value model)
the engine's working world as it was before the call, the returned changes
list is empty, and the engine's working world itself is unchanged, so no
partially mutated world is observable.  The hypothesis states that the
private transaction manager has no transaction in flight, which holds for
every engine the constructor produces and is re-established by every call. -/
theorem C1_failed_execute_preserves_world
    (s : EngineState) (pid : String) (a : Action) (turn : Int)
    (hidle : tmIdle s.tm = true) :
    ∃ s2 r tr, executeAction s pid a turn = .ok (s2, r, tr) ∧
      (r.success = false → r.world = s.world ∧ r.changes = [] ∧ s2.world = s.world) := by
  obtain ⟨s2, r, tr, hx, _, hfail, _, _⟩ := executeAction_total s pid a turn hidle
  exact ⟨s2, r, tr, hx, hfail⟩

/-- Witness for C1 at a concrete failing call: an unknown player id on the
sample world. -/
theorem C1_witness :
    ∃ s2 r tr, executeAction (mkEngine sampleWorld) "ghost"
        { type := .REST, target := none, description := "Rest", energyCost := 0 } 1 =
          .ok (s2, r, tr) ∧
      (r.success = false → r.world = (mkEngine sampleWorld).world ∧ r.changes = [] ∧
        s2.world = (mkEngine sampleWorld).world) :=
  C1_failed_execute_preserves_world (mkEngine sampleWorld) "ghost"
    { type := .REST, target := none, description := "Rest", energyCost := 0 } 1 (by rfl)

/-- C3 counterexample: rollback does not fail on an already rolled-back
transaction.  Starting a transaction from a fresh manager and rolling it
back twice: the second rollback also returns ok, where the claim says it
must fail. -/
theorem C3_counterexample :
    (match startTransaction { transaction := none } sampleWorld 1 with
     | .ok (tm1, _) =>
       (match TMrollback tm1 with
        | .ok (tm2, _) =>
          (match TMrollback tm2 with
           | .ok _ => true
           | .error _ => false)
        | .error _ => false)
     | .error _ => false) = true := by rfl

/-- C3 amended: rollback fails exactly when no transaction exists or the
current transaction is already committed (an already rolled-back transaction
is rolled back again without error); on success it marks the transaction
rolled back and returns a fresh deep copy (in the value model, the value) of
the transaction's pre-snapshot world. -/
theorem C3_rollback_amended (tm : TMState) :
    ((∃ m, TMrollback tm = .error m) ↔
      tm.transaction = none ∨ ∃ t, tm.transaction = some t ∧ t.committed = true) ∧
    (∀ t, tm.transaction = some t → t.committed = false →
      TMrollback tm = .ok ({ transaction := some { t with rolledBack := true } },
        cloneWorld t.preSnapshot.world)) := by
  obtain ⟨tr0⟩ := tm
  constructor
  · cases tr0 with
    | none =>
      constructor
      · intro _; exact Or.inl rfl
      · intro _; exact ⟨"No transaction to rollback", rfl⟩
    | some t =>
      cases hc : t.committed with
      | true =>
        constructor
        · intro _; exact Or.inr ⟨t, rfl, hc⟩
        · intro _
          refine ⟨"Cannot rollback committed transaction", ?_⟩
          unfold TMrollback
          dsimp only
          rw [if_pos hc]
      | false =>
        constructor
        · intro ⟨m, hm⟩
          rw [TMrollback_plain hc] at hm
          cases hm
        · intro h
          rcases h with h1 | ⟨t2, ht2, hc2⟩
          · cases h1
          · injection ht2 with ht3
            subst ht3
            rw [hc] at hc2
            cases hc2
  · intro t ht hc
    replace ht : tr0 = some t := ht
    subst ht
    exact TMrollback_plain hc

/-- Witness for C3 amended: the failure direction at an empty manager and
the success form at a live transaction over the sample world. -/
theorem C3_witness :
    (∃ m, TMrollback ({ transaction := none } : TMState) = .error m) ∧
    TMrollback ⟨some ⟨"", createSnapshot sampleWorld 1 (some "pre_transaction"), [], false, false⟩⟩ =
      .ok (⟨some ⟨"", createSnapshot sampleWorld 1 (some "pre_transaction"), [], false, true⟩⟩,
        cloneWorld (createSnapshot sampleWorld 1 (some "pre_transaction")).world) :=
  ⟨(C3_rollback_amended { transaction := none }).1.2 (Or.inl rfl),
    (C3_rollback_amended _).2 _ rfl rfl⟩

/-- C6 counterexample: applyChange with field __new_entity__ and a present
but falsy newValue (the number 0) on the id of an existing entity does not
append the value to the entity collection (the claim says any present
newValue is appended); it falls through to the generic path and writes a
literal __new_entity__ property on the existing entity.  The entity count
stays 9 where appending would give 10. -/
theorem splitDotsList_ne_nil (l : List Char) : splitDotsList l ≠ [] := by
  cases l with
  | nil => intro h; cases h
  | cons c rest =>
    unfold splitDotsList
    cases h2 : splitDotsList rest with
    | nil => intro h; cases h
    | cons a t =>
      dsimp only
      by_cases hc : c = '.'
      · rw [if_pos hc]
        intro h
        cases h
      · rw [if_neg hc]
        intro h
        cases h

theorem splitDots_ne_nil (s : String) : splitDots s ≠ [] :=
  splitDotsList_ne_nil s.toList

theorem setPath_objPath (parts : List String) : ∀ (e v : JValue) (orig : String),
    parts ≠ [] → objPathOk e parts = true →
    setPath e parts v orig = .ok (updateAtKeys e parts v) := by
  induction parts with
  | nil =>
    intro e v orig h
    exact absurd rfl h
  | cons k rest ih =>
    intro e v orig hne hok
    cases rest with
    | nil =>
      cases e with
      | obj fs => rfl
      | null => cases hok
      | bool b => cases hok
      | num n => cases hok
      | str s => cases hok
      | arr xs => cases hok
    | cons k2 rs =>
      cases e with
      | obj fs =>
        unfold objPathOk at hok
        cases hlk : jlookup fs k with
        | none =>
          rw [hlk] at hok
          cases hok
        | some sub =>
          rw [hlk] at hok
          dsimp only at hok
          cases sub with
          | obj fs2 =>
            rw [setPath.eq_def]
            dsimp only
            rw [show jsGet (JValue.obj fs) k = jlookup fs k from rfl, hlk]
            dsimp only
            rw [ih (JValue.obj fs2) v orig (List.cons_ne_nil _ _) hok]
            dsimp only
            rw [show updateAtKeys (JValue.obj fs) (k :: k2 :: rs) v =
              JValue.obj (jset fs k (updateAtKeys (JValue.obj fs2) (k2 :: rs) v)) from by
                rw [updateAtKeys.eq_def]
                dsimp only
                rw [hlk]]
            rfl
          | null => cases hok
          | bool b => cases hok
          | num n => cases hok
          | str s => cases hok
          | arr xs => cases hok
      | null => cases hok
      | bool b => cases hok
      | num n => cases hok
      | str s => cases hok
      | arr xs => cases hok

theorem C6_counterexample :
    ∃ w2, applyChange sampleWorld newEntityFalsyChange = .ok w2 ∧
      w2.entities.length = 9 ∧
      (sampleWorld.entities ++ [newEntityFalsyChange.newValue]).length = 10 ∧
      (∃ e, mapGet w2 "potion" = some e ∧ jsGet e "__new_entity__" = some (.num 0)) := by
  refine ⟨_, rfl, rfl, rfl, ⟨_, rfl, rfl⟩⟩

/-- C6 (amended): applying one StateChange removes the first entity with the
given id when field is the removal marker (a no-op when absent); appends
newValue when field is the creation marker and newValue is truthy; and
otherwise locates the first entity with the id (failing with an error naming
it when absent) and walks the dot-split path: a missing or null intermediate
fails with an invalid-path error at any depth, descent through any present
non-null value recurses and rebuilds the containers on the way back, and the
final segment is assigned on an object container, assigned or padded at a
canonical index on an array container, and raises a strict-mode TypeError on
a primitive container of any kind. -/
theorem C6_applyChange_amended :
    (∀ w c, c.field = "__remove_entity__" →
      applyChange w c = .ok { w with entities := removeFirstById w.entities c.entityId } ∧
      (findFirstById w.entities c.entityId = none → applyChange w c = .ok w)) ∧
    (∀ w c, ¬ (c.field = "__remove_entity__") → c.field = "__new_entity__" →
      truthy c.newValue = true →
      applyChange w c = .ok { w with entities := w.entities ++ [c.newValue] }) ∧
    (∀ w c, ¬ (c.field = "__remove_entity__") →
      (c.field = "__new_entity__" && truthy c.newValue) = false →
      findFirstById w.entities c.entityId = none →
      applyChange w c = .error ("Entity not found: \"" ++ c.entityId ++ "\"")) ∧
    (∀ w c k fs, ¬ (c.field = "__remove_entity__") →
      (c.field = "__new_entity__" && truthy c.newValue) = false →
      splitDots c.field = [c.field] →
      findFirstById w.entities c.entityId = some (k, .obj fs) →
      applyChange w c =
        .ok { w with entities := w.entities.set k (.obj (jset fs c.field c.newValue)) }) ∧
    (∀ w c k e k1 k2, ¬ (c.field = "__remove_entity__") →
      (c.field = "__new_entity__" && truthy c.newValue) = false →
      splitDots c.field = [k1, k2] →
      findFirstById w.entities c.entityId = some (k, e) →
      (jsGet e k1 = none ∨ jsGet e k1 = some .null) →
      applyChange w c = .error ("Invalid field path: \"" ++ c.field ++ "\"")) ∧
    (∀ w c k e k1 k2 s0, ¬ (c.field = "__remove_entity__") →
      (c.field = "__new_entity__" && truthy c.newValue) = false →
      splitDots c.field = [k1, k2] →
      findFirstById w.entities c.entityId = some (k, e) →
      jsGet e k1 = some (.str s0) →
      applyChange w c = .error ("TypeError: cannot create property " ++ k2)) ∧
    (∀ w c, ¬ (c.field = "__remove_entity__") →
      (c.field = "__new_entity__" && truthy c.newValue) = false →
      applyChange w c =
        (match findFirstById w.entities c.entityId with
        | none => .error ("Entity not found: \"" ++ c.entityId ++ "\"")
        | some (idx, e) =>
          match setPath e (splitDots c.field) c.newValue c.field with
          | .error m => .error m
          | .ok e2 => .ok { w with entities := w.entities.set idx e2 })) ∧
    (∀ fs f v orig, setPath (.obj fs) [f] v orig = .ok (.obj (jset fs f v))) ∧
    (∀ xs f i v orig, asIndex f = some i → i < xs.length →
      setPath (.arr xs) [f] v orig = .ok (.arr (xs.set i v))) ∧
    (∀ xs f i v orig, asIndex f = some i → xs.length ≤ i →
      setPath (.arr xs) [f] v orig =
        .ok (.arr ((xs ++ List.replicate (i - xs.length) JValue.null) ++ [v]))) ∧
    (∀ e f v orig, (e = JValue.null ∨ (∃ b, e = JValue.bool b) ∨
        (∃ n, e = JValue.num n) ∨ (∃ s, e = JValue.str s)) →
      setPath e [f] v orig = .error ("TypeError: cannot create property " ++ f)) ∧
    (∀ e k rest v orig, rest ≠ [] →
      (jsGet e k = none ∨ jsGet e k = some JValue.null) →
      setPath e (k :: rest) v orig =
        .error ("Invalid field path: \"" ++ orig ++ "\"")) ∧
    (∀ e k rest sub v orig m, rest ≠ [] → jsGet e k = some sub →
      sub ≠ JValue.null → setPath sub rest v orig = .error m →
      setPath e (k :: rest) v orig = .error m) ∧
    (∀ e k rest sub sub2 v orig, rest ≠ [] → jsGet e k = some sub →
      sub ≠ JValue.null → setPath sub rest v orig = .ok sub2 →
      setPath e (k :: rest) v orig = .ok (jsPut e k sub2)) ∧
    (∀ e parts v orig, parts ≠ [] → objPathOk e parts = true →
      setPath e parts v orig = .ok (updateAtKeys e parts v)) ∧
    (∀ w c idx fs, ¬ (c.field = "__remove_entity__") →
      (c.field = "__new_entity__" && truthy c.newValue) = false →
      findFirstById w.entities c.entityId = some (idx, .obj fs) →
      objPathOk (.obj fs) (splitDots c.field) = true →
      applyChange w c = .ok { w with entities := w.entities.set idx (updateAtKeys (.obj fs) (splitDots c.field) c.newValue) }) := by
  have hstep : ∀ (e : JValue) (k : String) (rest : List String) (sub v : JValue)
      (orig : String), rest ≠ [] → jsGet e k = some sub → sub ≠ JValue.null →
      setPath e (k :: rest) v orig =
        (match setPath sub rest v orig with
        | .error m => .error m
        | .ok sub2 => .ok (jsPut e k sub2)) := by
    intro e k rest sub v orig hne hget hsub
    cases rest with
    | nil => exact absurd rfl hne
    | cons k2 rs =>
      rw [setPath.eq_def]
      dsimp only
      rw [hget]
      cases sub with
      | null => exact absurd rfl hsub
      | obj fs => rfl
      | bool b => rfl
      | num n => rfl
      | str s => rfl
      | arr xs => rfl
  refine ⟨?_, ?_, ?_, ?_, ?_, ?_, ?_, ?_, ?_, ?_, ?_, ?_, ?_, ?_, ?_, ?_⟩
  · intro w c h
    refine ⟨applyChange_remove h, ?_⟩
    intro hnone
    rw [applyChange_remove h,
      removeFirstById_of_absent (findFirstById_eq_none_iff.1 hnone)]
  · intro w c h1 h2 h3
    exact applyChange_new_truthy h1 h2 h3
  · intro w c h1 h2 h3
    exact applyChange_notFound h1 h2 h3
  · intro w c k fs h1 h2 h3 h4
    exact applyChange_single h1 h2 h3 h4
  · intro w c k e k1 k2 h1 h2 h3 h4 h5
    rw [applyChange_generic h1 h2, h4]
    dsimp only
    rw [h3, setPath.eq_def]
    dsimp only
    rcases h5 with h5 | h5 <;> rw [h5]
  · intro w c k e k1 k2 s0 h1 h2 h3 h4 h5
    rw [applyChange_generic h1 h2, h4]
    dsimp only
    rw [h3, setPath.eq_def]
    dsimp only
    rw [h5]
    rfl
  · intro w c h1 h2
    exact applyChange_generic h1 h2
  · intro fs f v orig
    rfl
  · intro xs f i v orig hidx hlt
    show jsSet (JValue.arr xs) f v = _
    unfold jsSet
    dsimp only
    rw [hidx]
    dsimp only
    rw [if_pos hlt]
  · intro xs f i v orig hidx hge
    show jsSet (JValue.arr xs) f v = _
    unfold jsSet
    dsimp only
    rw [hidx]
    dsimp only
    rw [if_neg (by omega)]
  · rintro e f v orig (rfl | ⟨b, rfl⟩ | ⟨n, rfl⟩ | ⟨s, rfl⟩) <;> rfl
  · intro e k rest v orig hne hget
    cases rest with
    | nil => exact absurd rfl hne
    | cons k2 rs =>
      rw [setPath.eq_def]
      dsimp only
      rcases hget with h | h <;> rw [h]
  · intro e k rest sub v orig m hne hget hsub hrec
    rw [hstep e k rest sub v orig hne hget hsub, hrec]
  · intro e k rest sub sub2 v orig hne hget hsub hrec
    rw [hstep e k rest sub v orig hne hget hsub, hrec]
  · intro e parts v orig hne hok
    exact setPath_objPath parts e v orig hne hok
  · intro w c idx fs h1 h2 hfind hok
    rw [applyChange_generic h1 h2, hfind]
    dsimp only
    rw [setPath_objPath (splitDots c.field) (.obj fs) c.newValue c.field
      (splitDots_ne_nil c.field) hok]

/-- Witness for C6 amended, at concrete inputs: a removal, a truthy append,
a missing entity, a missing intermediate, an assignment reaching a string, a
nested two-segment object write on the sample world's tavern, a three-level
object write, an array index write, and a numeric final container. -/
theorem C6_witness :
    (applyChange sampleWorld ⟨"", "potion", "__remove_entity__", .null, .null, 1, "d"⟩ =
      .ok { sampleWorld with
        entities := removeFirstById sampleWorld.entities "potion" }) ∧
    (applyChange sampleWorld ⟨"", "gem", "__new_entity__", .null, .str "gem", 1, "d"⟩ =
      .ok { sampleWorld with entities := sampleWorld.entities ++ [.str "gem"] }) ∧
    (applyChange sampleWorld ⟨"", "ghost", "health", .null, .num 5, 1, "d"⟩ =
      .error "Entity not found: \"ghost\"") ∧
    (applyChange sampleWorld ⟨"", "player", "missing.x", .null, .num 5, 1, "d"⟩ =
      .error "Invalid field path: \"missing.x\"") ∧
    (applyChange sampleWorld ⟨"", "player", "name.x", .null, .num 5, 1, "d"⟩ =
      .error "TypeError: cannot create property x") ∧
    (applyChange sampleWorld
        ⟨"", "tavern", "connections.locked_room", .null, pObj [], 1, "d"⟩ =
      .ok { sampleWorld with entities := sampleWorld.entities.set 0 (updateAtKeys (pObj [("id", .str "tavern"), ("name", .str "The Tavern"), ("type", .str "place"), ("description", .str "A cozy tavern"), ("connections", pObj [("forest", pObj []), ("locked_room", pObj [("requires_item", .str "key")])])]) ["connections", "locked_room"] (pObj [])) }) ∧
    (setPath (pObj [("a", pObj [("b", pObj [("c", .num 1)])])]) ["a", "b", "c"]
        (.num 2) "a.b.c" =
      .ok (updateAtKeys (pObj [("a", pObj [("b", pObj [("c", .num 1)])])])
        ["a", "b", "c"] (.num 2))) ∧
    (setPath (.arr [.num 7, .num 8]) ["1"] (.num 9) "1" =
      .ok (.arr ([JValue.num 7, JValue.num 8].set 1 (.num 9)))) ∧
    (setPath (.num 3) ["x"] (.num 9) "x" =
      .error "TypeError: cannot create property x") := by
  refine ⟨?_, ?_, ?_, ?_, ?_, ?_, ?_, ?_, ?_⟩
  · exact (C6_applyChange_amended.1 sampleWorld _ rfl).1
  · exact C6_applyChange_amended.2.1 sampleWorld _ (by decide) rfl (by decide)
  · exact C6_applyChange_amended.2.2.1 sampleWorld _ (by decide) (by decide) (by rfl)
  · exact C6_applyChange_amended.2.2.2.2.1 sampleWorld _ 4 _ "missing" "x" (by decide)
      (by decide) (by rfl) (by rfl) (Or.inl (by rfl))
  · exact C6_applyChange_amended.2.2.2.2.2.1 sampleWorld _ 4 _ "name" "x" "Hero"
      (by decide) (by decide) (by rfl) (by rfl) (by rfl)
  · exact C6_applyChange_amended.2.2.2.2.2.2.2.2.2.2.2.2.2.2.2 sampleWorld _ 0 _
      (by decide) (by decide) (by rfl) (by rfl)
  · exact C6_applyChange_amended.2.2.2.2.2.2.2.2.2.2.2.2.2.2.1
      (pObj [("a", pObj [("b", pObj [("c", .num 1)])])]) ["a", "b", "c"]
      (.num 2) "a.b.c" (by decide) (by rfl)
  · exact C6_applyChange_amended.2.2.2.2.2.2.2.2.1 [.num 7, .num 8] "1" 1 (.num 9)
      "1" (by rfl) (by decide)
  · exact C6_applyChange_amended.2.2.2.2.2.2.2.2.2.2.1 (.num 3) "x" (.num 9) "x"
      (Or.inr (Or.inr (Or.inl ⟨3, rfl⟩)))

/-! ### Lemmas about generateValidActions -/

theorem lastById_of_mem_nodup {l : List JValue} {i : String} {e : JValue}
    (hu : nodupIds l) (he : e ∈ l) (hid : eid? e = some i) :
    lastById l i = some e := by
  induction l with
  | nil => cases he
  | cons x rest ih =>
    rw [lastById_cons]
    rcases List.mem_cons.1 he with h1 | h2
    · subst h1
      have hnone : lastById rest i = none :=
        lastById_eq_none_iff.2 (nodupIds_cons_no_more hu hid)
      rw [hnone, if_pos hid]
    · rw [ih (nodupIds_of_cons hu) h2]

theorem generateValidActions_eq (w : World) (pid : String)
    {player playerLocation : JValue}
    (hp : mapGet w pid = some player)
    (htp : typeIs player "person" = true)
    (hres : (match asStrO (jsGet player "location") with
      | some l => mapGet w l
      | none => none) = some playerLocation)
    (hpt : typeIs playerLocation "place" = true) :
    generateValidActions w pid =
      [⟨.REST, none, "Rest to recover energy", 0⟩,
       ⟨.WAIT, none, "Wait and observe", 0⟩] ++
      (if optGe (energyVal player) 5 then
        [⟨.EXPLORE, none, "Explore your surroundings to discover something new", 4⟩]
      else []) ++
      (if truthyO (jsGet playerLocation "connections") && optGt (energyVal player) 10 then
        (jsEntries ((jsGet playerLocation "connections").getD .null)).filterMap
          (moveActionFor w player)
      else []) ++
      (if optGe (energyVal player) 5 then
        (peopleHere w player pid).map (fun p =>
          ⟨.TALK, eid? p, "Talk to " ++ jsDisplayO (jsGet p "name"), 3⟩)
      else []) ++
      (itemsHere w player).map (fun it =>
        ⟨.TAKE_ITEM, eid? it, "Pick up " ++ jsDisplayO (jsGet it "name"), 0⟩) ++
      (match inventoryArr player with
       | some xs =>
         xs.filterMap (fun idv =>
           match idv with
           | .str s =>
             (match mapGet w s with
             | some item =>
               some ⟨.DROP_ITEM, some s, "Drop " ++ jsDisplayO (jsGet item "name"), 0⟩
             | none => none)
           | _ => none)
       | none => []) ++
      (match inventoryArr player with
       | some xs =>
         xs.filterMap (fun idv =>
           match idv with
           | .str s =>
             (match mapGet w s with
             | some item =>
               if truthyO (jsGet item "usable") then
                 some ⟨.USE_ITEM, some s, "Use " ++ jsDisplayO (jsGet item "name"), 0⟩
               else none
             | none => none)
           | _ => none)
       | none => []) ++
      (if optGe (energyVal player) 2 then
        (peopleHere w player pid).map (fun p =>
          ⟨.EXAMINE, eid? p, "Examine " ++ jsDisplayO (jsGet p "name"), 1⟩) ++
        ((itemsHere w player ++ invResolved w player).filter
            (fun it => typeIs it "item")).map (fun it =>
          ⟨.EXAMINE, eid? it, "Examine " ++ jsDisplayO (jsGet it "name"), 1⟩) ++
        [⟨.EXAMINE, asStrO (jsGet player "location"),
          "Examine " ++ jsDisplayO (jsGet playerLocation "name"), 1⟩]
      else []) := by
  unfold generateValidActions
  rw [hp]
  dsimp only
  rw [if_neg (by rw [htp]; decide), hres]
  dsimp only
  rw [if_neg (by rw [hpt]; decide)]

theorem generateValidActions_invalid (w : World) (pid : String)
    (h : (match mapGet w pid with
      | none => true
      | some player =>
        !(typeIs player "person") ||
        (match (match asStrO (jsGet player "location") with
          | some l => mapGet w l
          | none => none) with
         | none => true
         | some loc => !(typeIs loc "place"))) = true) :
    generateValidActions w pid = [] := by
  unfold generateValidActions
  cases hp : mapGet w pid with
  | none => rfl
  | some player =>
    rw [hp] at h
    dsimp only at h
    dsimp only
    cases htp : typeIs player "person" with
    | false => rw [if_pos (by decide)]
    | true =>
      rw [if_neg (by decide)]
      rw [htp] at h
      cases hres : (match asStrO (jsGet player "location") with
        | some l => mapGet w l
        | none => none) with
      | none => rfl
      | some loc =>
        rw [hres] at h
        dsimp only at h
        dsimp only
        cases hpt : typeIs loc "place" with
        | false => rw [if_pos (by decide)]
        | true =>
          rw [hpt] at h
          exact absurd h (by decide)

theorem moveActionFor_shape {w : World} {player : JValue} {tc : String × JValue}
    {act : Action} (h : moveActionFor w player tc = some act) :
    act.type = .MOVE ∧ act.target = some tc.1 ∧ act.energyCost = 5 := by
  unfold moveActionFor at h
  cases hm : mapGet w tc.1 with
  | none => rw [hm] at h; cases h
  | some tp =>
    rw [hm] at h
    dsimp only at h
    by_cases hcond : (!(truthyO (jsGet tc.2 "requires_item") &&
        !(match jsGet tc.2 "requires_item" with
          | some v => invIncludes player v
          | none => false)) &&
        !(truthyO (jsGet tc.2 "requires_health") &&
          jsLtB (jsGet player "health") (jsGet tc.2 "requires_health"))) = true
    · rw [if_pos hcond] at h
      cases h
      exact ⟨rfl, rfl, rfl⟩
    · rw [if_neg hcond] at h
      cases h

/-! ### Helpers for reasoning about membership in the generated action list -/

theorem mem_ite_nil {p : Prop} [Decidable p] {xs : List Action} {a : Action}
    (h : a ∈ (if p then xs else [])) : a ∈ xs := by
  by_cases hp : p
  · rwa [if_pos hp] at h
  · rw [if_neg hp] at h
    cases h

theorem findFirst_of_lastById {l : List JValue} {i : String} {e : JValue}
    (hu : nodupIds l) (h : lastById l i = some e) :
    ∃ k, findFirstById l i = some (k, e) := by
  have heq : lastById l i = (findFirstById l i).map Prod.snd :=
    lastById_eq_findFirst hu
  rw [h] at heq
  cases hf : findFirstById l i with
  | none => rw [hf] at heq; cases heq
  | some p =>
    obtain ⟨k, y⟩ := p
    rw [hf] at heq
    dsimp only [Option.map] at heq
    injection heq with hy
    exact ⟨k, by rw [hy]⟩

theorem moveActionFor_locked {w : World} {player conn : JValue} {t rid : String}
    (hreq : jsGet conn "requires_item" = some (.str rid)) (hrid : rid ≠ "")
    (hnoinv : invIncludes player (.str rid) = false) :
    moveActionFor w player (t, conn) = none := by
  unfold moveActionFor
  dsimp only
  cases hm : mapGet w t with
  | none => rfl
  | some tp =>
    dsimp only
    rw [hreq]
    dsimp only [truthyO, truthy]
    rw [hnoinv]
    have ht : (rid != "") = true := bne_iff_ne.mpr hrid
    rw [ht]
    simp

theorem validateAction_move_ok {w : World} {player place conn : JValue}
    {cfs : List (String × JValue)} {l t : String} (d : String) {en : Int}
    (hloc : asStrO (jsGet player "location") = some l)
    (hplace : mapGet w l = some place)
    (hconns : jsGet place "connections" = some (.obj cfs))
    (hlook : jlookup cfs t = some conn)
    (hctruthy : truthy conn = true)
    (hen : energyVal player = some en) (hen5 : 5 ≤ en) :
    validateAction w ⟨.MOVE, some t, d, 5⟩ player = none := by
  unfold validateAction
  rw [hen]
  dsimp only [optLt]
  rw [if_neg (by simp only [decide_eq_true_eq]; omega)]
  rw [hloc]
  dsimp only
  rw [hplace]
  dsimp only
  rw [hconns]
  dsimp only [Option.getD]
  rw [jsGet_obj, hlook]
  dsimp only [truthyO]
  rw [hctruthy]
  rw [if_neg (by decide)]

theorem applyChanges_pair {w w1 w2 : World} {c1 c2 : StateChange}
    (h1 : applyChange w c1 = .ok w1) (h2 : applyChange w1 c2 = .ok w2) :
    applyChanges w [c1, c2] = .ok w2 := by
  unfold applyChanges
  rw [h1]
  dsimp only
  unfold applyChanges
  rw [h2]
  dsimp only
  rfl

theorem drop_block_type {w : World} {player : JValue} {act : Action}
    (h : act ∈ ((match inventoryArr player with
      | some xs =>
        xs.filterMap (fun idv =>
          match idv with
          | JValue.str s =>
            (match mapGet w s with
            | some item =>
              some ⟨ActionType.DROP_ITEM, some s,
                "Drop " ++ jsDisplayO (jsGet item "name"), 0⟩
            | none => none)
          | _ => none)
      | none => []) : List Action)) : act.type = ActionType.DROP_ITEM := by
  cases hinv : inventoryArr player with
  | none => rw [hinv] at h; cases h
  | some xs =>
    rw [hinv] at h
    obtain ⟨idv, hmemI, hfm⟩ := List.mem_filterMap.1 h
    cases idv with
    | str s =>
      dsimp only at hfm
      cases hmg : mapGet w s with
      | none => rw [hmg] at hfm; cases hfm
      | some item =>
        rw [hmg] at hfm
        dsimp only at hfm
        cases hfm
        rfl
    | null => cases hfm
    | bool b => cases hfm
    | num n => cases hfm
    | arr ys => cases hfm
    | obj fs => cases hfm

theorem use_block_type {w : World} {player : JValue} {act : Action}
    (h : act ∈ ((match inventoryArr player with
      | some xs =>
        xs.filterMap (fun idv =>
          match idv with
          | JValue.str s =>
            (match mapGet w s with
            | some item =>
              if truthyO (jsGet item "usable") then
                some ⟨ActionType.USE_ITEM, some s,
                  "Use " ++ jsDisplayO (jsGet item "name"), 0⟩
              else none
            | none => none)
          | _ => none)
      | none => []) : List Action)) : act.type = ActionType.USE_ITEM := by
  cases hinv : inventoryArr player with
  | none => rw [hinv] at h; cases h
  | some xs =>
    rw [hinv] at h
    obtain ⟨idv, hmemI, hfm⟩ := List.mem_filterMap.1 h
    cases idv with
    | str s =>
      dsimp only at hfm
      cases hmg : mapGet w s with
      | none => rw [hmg] at hfm; cases hfm
      | some item =>
        rw [hmg] at hfm
        dsimp only at hfm
        by_cases hu : truthyO (jsGet item "usable") = true
        · rw [if_pos hu] at hfm
          cases hfm
          rfl
        · rw [if_neg hu] at hfm
          cases hfm
    | null => cases hfm
    | bool b => cases hfm
    | num n => cases hfm
    | arr ys => cases hfm
    | obj fs => cases hfm

/-- C2 counterexample: in the sample world the tavern connection to the
locked room requires the key, the player holds no key, yet executeAction
with a direct MOVE to the locked room succeeds, where the claim says it
must fail with a not-connected error. -/
theorem C2_counterexample :
    ((mapGet sampleWorld "player").map (fun p => invIncludes p (.str "key"))) =
      some false ∧
    execSuccess (mkEngine sampleWorld) "player" moveLockedRoom 1 = true :=
  ⟨rfl, rfl⟩

/-- C2 (amended): when the current place has a connection to a target whose
requires_item names a nonempty item id absent from the inventory of a player
with at least 5 energy, generateValidActions indeed emits no MOVE action to
that target; but executeAction called with such a MOVE anyway does not fail:
validateAction checks only that the connection value is truthy, so the call
succeeds and the committed world has the player relocated to the target. -/
theorem C2_locked_move_amended (s : EngineState) (pid l t rid d : String) (turn : Int)
    {player place conn : JValue} {cfs : List (String × JValue)} {en : Int}
    (hidle : tmIdle s.tm = true)
    (hnodup : nodupIds s.world.entities)
    (hp : mapGet s.world pid = some player)
    (htp : typeIs player "person" = true)
    (hloc : asStrO (jsGet player "location") = some l)
    (hplace : mapGet s.world l = some place)
    (hpt : typeIs place "place" = true)
    (hconns : jsGet place "connections" = some (.obj cfs))
    (hkeys : (cfs.map Prod.fst).Nodup)
    (hlook : jlookup cfs t = some conn)
    (hctruthy : truthy conn = true)
    (hreq : jsGet conn "requires_item" = some (.str rid))
    (hrid : rid ≠ "")
    (hnoinv : invIncludes player (.str rid) = false)
    (hen : energyVal player = some en)
    (hen5 : 5 ≤ en) :
    (∀ act ∈ generateValidActions s.world pid,
      ¬ (act.type = ActionType.MOVE ∧ act.target = some t)) ∧
    (∃ s2 tr p2,
      executeAction s pid ⟨ActionType.MOVE, some t, d, 5⟩ turn =
        .ok (s2,
          { success := true, world := s2.world,
            changes := tr.map (fun c => c.description), error := none }, tr) ∧
      mapGet s2.world pid = some p2 ∧
      jsGet p2 "location" = some (.str t)) := by
  have hres : (match asStrO (jsGet player "location") with
      | some l2 => mapGet s.world l2
      | none => none) = some place := by
    rw [hloc]
    exact hplace
  constructor
  · intro act hmem
    rw [generateValidActions_eq s.world pid hp htp hres hpt] at hmem
    intro hcontra
    obtain ⟨hty, htg⟩ := hcontra
    rcases List.mem_append.1 hmem with h7 | h8
    · rcases List.mem_append.1 h7 with h6 | hUse
      · rcases List.mem_append.1 h6 with h5 | hDrop
        · rcases List.mem_append.1 h5 with h4 | hTake
          · rcases List.mem_append.1 h4 with h3 | hTalk
            · rcases List.mem_append.1 h3 with h2 | hMove
              · rcases List.mem_append.1 h2 with hRW | hExp
                · simp only [List.mem_cons, List.not_mem_nil, or_false] at hRW
                  rcases hRW with rfl | rfl
                  · exact absurd hty (by decide)
                  · exact absurd hty (by decide)
                · have h := mem_ite_nil hExp
                  simp only [List.mem_cons, List.not_mem_nil, or_false] at h
                  subst h
                  exact absurd hty (by decide)
              · have h := mem_ite_nil hMove
                rw [hconns] at h
                dsimp only [Option.getD, jsEntries] at h
                obtain ⟨⟨k2, v⟩, hmemkv, hsome⟩ := List.mem_filterMap.1 h
                obtain ⟨_, htg2, _⟩ := moveActionFor_shape hsome
                dsimp only at htg2
                rw [htg] at htg2
                injection htg2 with hk
                subst hk
                have hv : v = conn := jlookup_mem_unique hkeys hlook hmemkv rfl
                subst hv
                rw [moveActionFor_locked hreq hrid hnoinv] at hsome
                cases hsome
            · have h := mem_ite_nil hTalk
              obtain ⟨p, hpm, heq⟩ := List.mem_map.1 h
              have hty2 : act.type = ActionType.TALK := by rw [← heq]
              exact absurd (hty2.symm.trans hty) (by decide)
          · obtain ⟨it, hpm, heq⟩ := List.mem_map.1 hTake
            have hty2 : act.type = ActionType.TAKE_ITEM := by rw [← heq]
            exact absurd (hty2.symm.trans hty) (by decide)
        · exact absurd ((drop_block_type hDrop).symm.trans hty) (by decide)
      · exact absurd ((use_block_type hUse).symm.trans hty) (by decide)
    · have h := mem_ite_nil h8
      rcases List.mem_append.1 h with h2 | hLast
      · rcases List.mem_append.1 h2 with hP | hI
        · obtain ⟨p, hpm, heq⟩ := List.mem_map.1 hP
          have hty2 : act.type = ActionType.EXAMINE := by rw [← heq]
          exact absurd (hty2.symm.trans hty) (by decide)
        · obtain ⟨it, hpm, heq⟩ := List.mem_map.1 hI
          have hty2 : act.type = ActionType.EXAMINE := by rw [← heq]
          exact absurd (hty2.symm.trans hty) (by decide)
      · simp only [List.mem_cons, List.not_mem_nil, or_false] at hLast
        have hty2 : act.type = ActionType.EXAMINE := by rw [hLast]
        exact absurd (hty2.symm.trans hty) (by decide)
  · have hidp : eid? player = some pid := (lastById_mem hp).2
    obtain ⟨pfs, rfl⟩ := eid?_some_obj hidp
    obtain ⟨k, hk⟩ := findFirst_of_lastById hnodup hp
    have hv := validateAction_move_ok d hloc hplace hconns hlook
      hctruthy hen hen5
    have hecs : (if 0 < (⟨ActionType.MOVE, some t, d, 5⟩ : Action).energyCost then
        [createEnergyChange pid ((energyVal (JValue.obj pfs)).getD 0)
          (max 0 ((energyVal (JValue.obj pfs)).getD 0 -
            (⟨ActionType.MOVE, some t, d, 5⟩ : Action).energyCost)) turn
          (actionTypeName (⟨ActionType.MOVE, some t, d, 5⟩ : Action).type)]
      else []) = [createEnergyChange pid en (max 0 (en - 5)) turn "MOVE"] := by
      rw [hen]
      rfl
    have heid : eidStr (JValue.obj pfs) = pid := by
      unfold eidStr
      rw [hidp]
      rfl
    have hrec : recordActionChanges s.world (JValue.obj pfs)
        ⟨ActionType.MOVE, some t, d, 5⟩ turn =
        .ok [createLocationChange pid (jsGet (JValue.obj pfs) "location")
          (some (JValue.str t)) turn] := by
      rw [← heid]
      rfl
    have happ1 : applyChange s.world
        (createEnergyChange pid en (max 0 (en - 5)) turn "MOVE") =
        .ok { s.world with entities := s.world.entities.set k (JValue.obj (jset pfs "energy" (JValue.num (max 0 (en - 5))))) } :=
      applyChange_single (of_decide_eq_false rfl) rfl rfl hk
    have hid1 : eid? (JValue.obj (jset pfs "energy" (JValue.num (max 0 (en - 5))))) =
        eid? (JValue.obj pfs) :=
      eid?_jset_other (by decide)
    have hk1 : findFirstById (s.world.entities.set k
        (JValue.obj (jset pfs "energy" (JValue.num (max 0 (en - 5)))))) pid =
        some (k, JValue.obj (jset pfs "energy" (JValue.num (max 0 (en - 5))))) :=
      findFirstById_set hk hid1
    have happ2 : applyChange { s.world with entities := s.world.entities.set k (JValue.obj (jset pfs "energy" (JValue.num (max 0 (en - 5))))) }
        (createLocationChange pid (jsGet (JValue.obj pfs) "location")
          (some (JValue.str t)) turn) =
        .ok { s.world with entities := (s.world.entities.set k (JValue.obj (jset pfs "energy" (JValue.num (max 0 (en - 5)))))).set k (JValue.obj (jset (jset pfs "energy" (JValue.num (max 0 (en - 5)))) "location" (JValue.str t))) } :=
      applyChange_single (of_decide_eq_false rfl) rfl rfl hk1
    have happ := applyChanges_pair happ1 happ2
    obtain ⟨tm2, hexec⟩ := executeAction_success s pid
      ⟨ActionType.MOVE, some t, d, 5⟩ turn hidle hp htp hv hecs hrec happ
    refine ⟨_, _, JValue.obj (jset (jset pfs "energy" (JValue.num (max 0 (en - 5)))) "location" (JValue.str t)), hexec, ?_, ?_⟩
    · have hn1 : nodupIds (s.world.entities.set k
          (JValue.obj (jset pfs "energy" (JValue.num (max 0 (en - 5)))))) :=
        nodupIds_set hnodup hk hid1
      have hid2 : eid? (JValue.obj (jset (jset pfs "energy"
          (JValue.num (max 0 (en - 5)))) "location" (JValue.str t))) = some pid := by
        rw [eid?_jset_other (by decide), hid1]
        exact hidp
      show lastById ((s.world.entities.set k
          (JValue.obj (jset pfs "energy" (JValue.num (max 0 (en - 5)))))).set k
          (JValue.obj (jset (jset pfs "energy" (JValue.num (max 0 (en - 5))))
            "location" (JValue.str t)))) pid =
        some (JValue.obj (jset (jset pfs "energy" (JValue.num (max 0 (en - 5))))
          "location" (JValue.str t)))
      rw [lastById_set hn1 hk1 hid2 pid, if_pos rfl]
    · rw [jsGet_obj, jlookup_jset, if_pos rfl]

/-- C2 witness: the amended claim instantiated in the sample world for the
locked-room connection whose key the player lacks. -/
theorem C2_witness :
    (∀ act ∈ generateValidActions (mkEngine sampleWorld).world "player",
      ¬ (act.type = ActionType.MOVE ∧ act.target = some "locked_room")) ∧
    (∃ s2 tr p2,
      executeAction (mkEngine sampleWorld) "player"
          ⟨ActionType.MOVE, some "locked_room", "Travel to Locked Room", 5⟩ 1 =
        .ok (s2,
          { success := true, world := s2.world,
            changes := tr.map (fun c => c.description), error := none }, tr) ∧
      mapGet s2.world "player" = some p2 ∧
      jsGet p2 "location" = some (.str "locked_room")) :=
  C2_locked_move_amended (mkEngine sampleWorld) "player" "tavern" "locked_room"
    "key" "Travel to Locked Room" 1 rfl (by unfold nodupIds; decide) rfl rfl rfl
    rfl rfl rfl (by decide) rfl rfl rfl (by decide) rfl rfl (by decide)

theorem applyChanges_cons {w w1 w2 : World} {c : StateChange} {cs : List StateChange}
    (h1 : applyChange w c = .ok w1) (h2 : applyChanges w1 cs = .ok w2) :
    applyChanges w (c :: cs) = .ok w2 := by
  unfold applyChanges
  rw [h1]
  dsimp only
  exact h2

/-- C8: using a consumable usable item with a +30 health effect at health 90
clamps health to 100, empties the inventory entry, removes the item from the
entity collection, and records a health change, then an inventory-removal
change, then an entity-removal change. -/
theorem C8_use_potion (s : EngineState) (pid iid d : String) (turn : Int)
    {player item : JValue} {pe : Int}
    (hidle : tmIdle s.tm = true)
    (hnodup : nodupIds s.world.entities)
    (hp : mapGet s.world pid = some player)
    (htp : typeIs player "person" = true)
    (hne : pid ≠ iid)
    (hpe : energyVal player = some pe)
    (hpe0 : 0 ≤ pe)
    (hhealth : healthVal player = some 90)
    (hinv : inventoryArr player = some [JValue.str iid])
    (hitem : mapGet s.world iid = some item)
    (htitem : typeIs item "item" = true)
    (hiid : eid? item = some iid)
    (heffH : jsGet ((jsGet item "effects").getD .null) "health" = some (.num 30))
    (heffE : jsGet ((jsGet item "effects").getD .null) "energy" = some (.num 0))
    (hcons : truthyO (jsGet item "consumable") = true) :
    ∃ s2 p2,
      executeAction s pid ⟨ActionType.USE_ITEM, some iid, d, 0⟩ turn =
        .ok (s2,
          { success := true, world := s2.world,
            changes := [createHealthChange pid 90 100 turn
                ("used " ++ jsDisplayO (jsGet item "name")),
              createInventoryChange pid [JValue.str iid] [] turn false
                (jsDisplayO (jsGet item "name")),
              ⟨"", iid, "__remove_entity__", item, JValue.null, turn,
                jsDisplayO (jsGet item "name") ++ " was consumed."⟩].map
              (fun c => c.description), error := none },
          [createHealthChange pid 90 100 turn
              ("used " ++ jsDisplayO (jsGet item "name")),
            createInventoryChange pid [JValue.str iid] [] turn false
              (jsDisplayO (jsGet item "name")),
            ⟨"", iid, "__remove_entity__", item, JValue.null, turn,
              jsDisplayO (jsGet item "name") ++ " was consumed."⟩]) ∧
      mapGet s2.world pid = some p2 ∧
      healthVal p2 = some 100 ∧
      inventoryArr p2 = some [] ∧
      mapGet s2.world iid = none := by
  have hidp : eid? player = some pid := (lastById_mem hp).2
  obtain ⟨pfs, rfl⟩ := eid?_some_obj hidp
  obtain ⟨k, hk⟩ := findFirst_of_lastById hnodup hp
  have heidp : eidStr (JValue.obj pfs) = pid := by
    unfold eidStr
    rw [hidp]
    rfl
  have heidit : eidStr item = iid := by
    unfold eidStr
    rw [hiid]
    rfl
  have hinc : invIncludes (JValue.obj pfs) (JValue.str iid) = true := by
    unfold invIncludes
    rw [hinv]
    simp [jsStrictEq]
  have hv : validateAction s.world ⟨ActionType.USE_ITEM, some iid, d, 0⟩
      (JValue.obj pfs) = none := by
    unfold validateAction
    rw [hpe]
    dsimp only [optLt]
    rw [if_neg (by simp only [decide_eq_true_eq]; omega)]
    rw [if_pos hinc]
  have hT1 : truthyO (jsGet ((jsGet item "effects").getD .null) "health") = true := by
    rw [heffH]
    rfl
  have hT2 : ¬ (truthyO (jsGet ((jsGet item "effects").getD .null) "energy") = true) := by
    rw [heffE]
    decide
  have hfilt : List.filter (fun x => !(jsStrictEq x (JValue.str iid)))
      [JValue.str iid] = [] := by
    simp [jsStrictEq]
  have hrec : recordActionChanges s.world (JValue.obj pfs)
      ⟨ActionType.USE_ITEM, some iid, d, 0⟩ turn =
      .ok [createHealthChange pid 90 100 turn
          ("used " ++ jsDisplayO (jsGet item "name")),
        createInventoryChange pid [JValue.str iid] [] turn false
          (jsDisplayO (jsGet item "name")),
        ⟨"", iid, "__remove_entity__", item, JValue.null, turn,
          jsDisplayO (jsGet item "name") ++ " was consumed."⟩] := by
    unfold recordActionChanges recordUseItemChanges
    dsimp only
    rw [hitem]
    dsimp only
    rw [if_neg (by rw [htitem]; decide)]
    rw [if_pos hT1, if_neg hT2, if_pos hcons]
    rw [hhealth, hinv, heffH]
    rw [heidp, heidit]
    dsimp only [Option.getD, jsNumO]
    rw [hfilt]
    rfl
  have happ1 : applyChange s.world (createHealthChange pid 90 100 turn
      ("used " ++ jsDisplayO (jsGet item "name"))) =
      .ok { s.world with entities := s.world.entities.set k (JValue.obj (jset pfs "health" (JValue.num 100))) } :=
    applyChange_single (of_decide_eq_false rfl) rfl rfl hk
  have hid1 : eid? (JValue.obj (jset pfs "health" (JValue.num 100))) =
      eid? (JValue.obj pfs) :=
    eid?_jset_other (by decide)
  have hk1 : findFirstById (s.world.entities.set k
      (JValue.obj (jset pfs "health" (JValue.num 100)))) pid =
      some (k, JValue.obj (jset pfs "health" (JValue.num 100))) :=
    findFirstById_set hk hid1
  have happ2 : applyChange { s.world with entities := s.world.entities.set k (JValue.obj (jset pfs "health" (JValue.num 100))) }
      (createInventoryChange pid [JValue.str iid] [] turn false
        (jsDisplayO (jsGet item "name"))) =
      .ok { s.world with entities := (s.world.entities.set k (JValue.obj (jset pfs "health" (JValue.num 100)))).set k (JValue.obj (jset (jset pfs "health" (JValue.num 100)) "inventory" (JValue.arr []))) } :=
    applyChange_single (of_decide_eq_false rfl) rfl rfl hk1
  have happ3 : applyChange { s.world with entities := (s.world.entities.set k (JValue.obj (jset pfs "health" (JValue.num 100)))).set k (JValue.obj (jset (jset pfs "health" (JValue.num 100)) "inventory" (JValue.arr []))) }
      (⟨"", iid, "__remove_entity__", item, JValue.null, turn,
        jsDisplayO (jsGet item "name") ++ " was consumed."⟩ : StateChange) =
      .ok { s.world with entities := removeFirstById ((s.world.entities.set k (JValue.obj (jset pfs "health" (JValue.num 100)))).set k (JValue.obj (jset (jset pfs "health" (JValue.num 100)) "inventory" (JValue.arr [])))) iid } :=
    applyChange_remove rfl
  have happ := applyChanges_cons happ1 (applyChanges_pair happ2 happ3)
  obtain ⟨tm2, hexec⟩ := executeAction_success s pid
    ⟨ActionType.USE_ITEM, some iid, d, 0⟩ turn hidle hp htp hv rfl hrec happ
  have hid2 : eid? (JValue.obj (jset (jset pfs "health" (JValue.num 100))
      "inventory" (JValue.arr []))) = eid? (JValue.obj (jset pfs "health"
      (JValue.num 100))) :=
    eid?_jset_other (by decide)
  have hn1 : nodupIds (s.world.entities.set k
      (JValue.obj (jset pfs "health" (JValue.num 100)))) :=
    nodupIds_set hnodup hk hid1
  have hn2 : nodupIds ((s.world.entities.set k (JValue.obj (jset pfs "health" (JValue.num 100)))).set k (JValue.obj (jset (jset pfs "health" (JValue.num 100)) "inventory" (JValue.arr [])))) :=
    nodupIds_set hn1 hk1 hid2
  have hidB : eid? (JValue.obj (jset (jset pfs "health" (JValue.num 100))
      "inventory" (JValue.arr []))) = some pid := by
    rw [hid2, hid1]
    exact hidp
  refine ⟨_, JValue.obj (jset (jset pfs "health" (JValue.num 100)) "inventory"
    (JValue.arr [])), hexec, ?_, ?_, ?_, ?_⟩
  · show lastById (removeFirstById ((s.world.entities.set k (JValue.obj (jset pfs "health" (JValue.num 100)))).set k (JValue.obj (jset (jset pfs "health" (JValue.num 100)) "inventory" (JValue.arr [])))) iid) pid =
      some (JValue.obj (jset (jset pfs "health" (JValue.num 100)) "inventory"
        (JValue.arr [])))
    rw [lastById_removeFirst hn2 pid, if_neg hne]
    rw [lastById_set hn1 hk1 hidB pid, if_pos rfl]
  · show jsNumO (jsGet (JValue.obj (jset (jset pfs "health" (JValue.num 100))
      "inventory" (JValue.arr []))) "health") = some 100
    rw [jsGet_obj, jlookup_jset, if_neg (by decide), jlookup_jset, if_pos rfl]
    rfl
  · have hj : jsGet (JValue.obj (jset (jset pfs "health" (JValue.num 100))
        "inventory" (JValue.arr []))) "inventory" = some (JValue.arr []) := by
      rw [jsGet_obj, jlookup_jset, if_pos rfl]
    unfold inventoryArr
    rw [hj]
  · show lastById (removeFirstById ((s.world.entities.set k (JValue.obj (jset pfs "health" (JValue.num 100)))).set k (JValue.obj (jset (jset pfs "health" (JValue.num 100)) "inventory" (JValue.arr [])))) iid) iid = none
    rw [lastById_removeFirst hn2 iid, if_pos rfl]

set_option maxHeartbeats 4000000 in
/-- C8 witness: scenario C in the sample world with the hero at health 90
holding the potion. -/
theorem C8_witness :
    ∃ s2 p2,
      executeAction (mkEngine sampleWorldPotion) "player"
          ⟨ActionType.USE_ITEM, some "potion", "Use Health Potion", 0⟩ 1 =
        .ok (s2,
          { success := true, world := s2.world,
            changes := [createHealthChange "player" 90 100 1
                ("used " ++ jsDisplayO (jsGet (pObj [("id", .str "potion"),
                  ("name", .str "Health Potion"), ("type", .str "item"),
                  ("description", .str "Restores health"),
                  ("location", .str "tavern"), ("usable", .bool true),
                  ("consumable", .bool true),
                  ("effects", pObj [("health", .num 30), ("energy", .num 0)])])
                  "name")),
              createInventoryChange "player" [JValue.str "potion"] [] 1 false
                (jsDisplayO (jsGet (pObj [("id", .str "potion"),
                  ("name", .str "Health Potion"), ("type", .str "item"),
                  ("description", .str "Restores health"),
                  ("location", .str "tavern"), ("usable", .bool true),
                  ("consumable", .bool true),
                  ("effects", pObj [("health", .num 30), ("energy", .num 0)])])
                  "name")),
              ⟨"", "potion", "__remove_entity__",
                pObj [("id", .str "potion"), ("name", .str "Health Potion"),
                  ("type", .str "item"), ("description", .str "Restores health"),
                  ("location", .str "tavern"), ("usable", .bool true),
                  ("consumable", .bool true),
                  ("effects", pObj [("health", .num 30), ("energy", .num 0)])],
                JValue.null, 1,
                jsDisplayO (jsGet (pObj [("id", .str "potion"),
                  ("name", .str "Health Potion"), ("type", .str "item"),
                  ("description", .str "Restores health"),
                  ("location", .str "tavern"), ("usable", .bool true),
                  ("consumable", .bool true),
                  ("effects", pObj [("health", .num 30), ("energy", .num 0)])])
                  "name") ++ " was consumed."⟩].map
              (fun c => c.description), error := none },
          [createHealthChange "player" 90 100 1
              ("used " ++ jsDisplayO (jsGet (pObj [("id", .str "potion"),
                ("name", .str "Health Potion"), ("type", .str "item"),
                ("description", .str "Restores health"),
                ("location", .str "tavern"), ("usable", .bool true),
                ("consumable", .bool true),
                ("effects", pObj [("health", .num 30), ("energy", .num 0)])])
                "name")),
            createInventoryChange "player" [JValue.str "potion"] [] 1 false
              (jsDisplayO (jsGet (pObj [("id", .str "potion"),
                ("name", .str "Health Potion"), ("type", .str "item"),
                ("description", .str "Restores health"),
                ("location", .str "tavern"), ("usable", .bool true),
                ("consumable", .bool true),
                ("effects", pObj [("health", .num 30), ("energy", .num 0)])])
                "name")),
            ⟨"", "potion", "__remove_entity__",
              pObj [("id", .str "potion"), ("name", .str "Health Potion"),
                ("type", .str "item"), ("description", .str "Restores health"),
                ("location", .str "tavern"), ("usable", .bool true),
                ("consumable", .bool true),
                ("effects", pObj [("health", .num 30), ("energy", .num 0)])],
              JValue.null, 1,
              jsDisplayO (jsGet (pObj [("id", .str "potion"),
                ("name", .str "Health Potion"), ("type", .str "item"),
                ("description", .str "Restores health"),
                ("location", .str "tavern"), ("usable", .bool true),
                ("consumable", .bool true),
                ("effects", pObj [("health", .num 30), ("energy", .num 0)])])
                "name") ++ " was consumed."⟩]) ∧
      mapGet s2.world "player" = some p2 ∧
      healthVal p2 = some 100 ∧
      inventoryArr p2 = some [] ∧
      mapGet s2.world "potion" = none :=
  C8_use_potion (mkEngine sampleWorldPotion) "player" "potion" "Use Health Potion" 1
    rfl (by unfold nodupIds; decide) rfl rfl (by decide) rfl (by decide) rfl rfl
    rfl rfl rfl rfl rfl rfl

theorem safeChange_bounds {c : StateChange} (hs : safeChange c = true)
    (hf : (c.field = "health" || c.field = "energy") = true) :
    ∃ n : Int, c.newValue = .num n ∧ 0 ≤ n ∧ n ≤ 100 := by
  unfold safeChange at hs
  rw [Bool.or_eq_true] at hs
  simp only [Bool.or_eq_true, decide_eq_true_eq] at hf
  rcases hs with h1 | h2
  · exfalso
    simp only [Bool.or_eq_true, decide_eq_true_eq] at h1
    rcases hf with hf | hf <;>
      rcases h1 with (((h | h) | h) | h) | h <;>
      (rw [hf] at h; exact absurd h (by decide))
  · rw [Bool.and_eq_true] at h2
    obtain ⟨hfe, hnv⟩ := h2
    cases hcv : c.newValue with
    | num n =>
      rw [hcv] at hnv
      dsimp only at hnv
      have hb := of_decide_eq_true hnv
      exact ⟨n, rfl, hb.1, hb.2⟩
    | null => rw [hcv] at hnv; cases hnv
    | bool b => rw [hcv] at hnv; cases hnv
    | str s2 => rw [hcv] at hnv; cases hnv
    | arr xs => rw [hcv] at hnv; cases hnv
    | obj fs => rw [hcv] at hnv; cases hnv

theorem runSteps_invHE (steps : List (String × Action × Int)) (s : EngineState)
    (hidle : tmIdle s.tm = true) (hinv : invHE s.world = true) :
    invHE (runSteps s steps).1.world = true ∧
    tmIdle (runSteps s steps).1.tm = true ∧
    (runSteps s steps).2.all safeChange = true := by
  induction steps generalizing s with
  | nil => exact ⟨hinv, hidle, rfl⟩
  | cons step rest ih =>
    obtain ⟨pid, a, t⟩ := step
    obtain ⟨s2, r, tr, hex, hidle2, hfail, hsucc, hsafe⟩ :=
      executeAction_total s pid a t hidle
    have hinv2 : invHE s2.world = true := by
      cases hrs : r.success with
      | true =>
        obtain ⟨happ, _⟩ := hsucc hrs
        exact invHE_applyChanges hinv (hsafe hinv) happ
      | false =>
        obtain ⟨_, _, hw2⟩ := hfail hrs
        rw [hw2]
        exact hinv
    obtain ⟨ih1, ih2, ih3⟩ := ih s2 hidle2 hinv2
    unfold runSteps
    rw [hex]
    dsimp only
    cases hrs2 : runSteps s2 rest with
    | mk s3 trs =>
      rw [hrs2] at ih1 ih2 ih3
      dsimp only at ih1 ih2 ih3 ⊢
      refine ⟨ih1, ih2, ?_⟩
      rw [List.all_append, hsafe hinv, ih3]
      rfl

/-- C4: starting from a World whose person entities have health and energy in
0..100, any sequence of executeAction calls keeps every committed world
inside those bounds (the final engine world shown here; prefixes follow by
instantiating the same statement on the prefix), and every health or energy
StateChange recorded along the way carries a numeric newValue in 0..100. -/
theorem C4_health_energy_bounds (w : World) (steps : List (String × Action × Int))
    (hw : invHE w = true) :
    invHE (runSteps (mkEngine w) steps).1.world = true ∧
    ∀ c ∈ (runSteps (mkEngine w) steps).2,
      (c.field = "health" || c.field = "energy") = true →
      ∃ n : Int, c.newValue = .num n ∧ 0 ≤ n ∧ n ≤ 100 := by
  have h := runSteps_invHE steps (mkEngine w) rfl hw
  refine ⟨h.1, ?_⟩
  intro c hc hf
  have hall := h.2.2
  rw [List.all_eq_true] at hall
  exact safeChange_bounds (hall c hc) hf

/-- C4 witness: the invariant holds in the sample world and is preserved by a
two-step WAIT and MOVE sequence, with all recorded health or energy changes
bounded. -/
theorem C4_witness :
    invHE sampleWorld = true ∧
    (invHE (runSteps (mkEngine sampleWorld)
        [("player", waitAction, 1), ("player", moveLockedRoom, 2)]).1.world = true ∧
    ∀ c ∈ (runSteps (mkEngine sampleWorld)
        [("player", waitAction, 1), ("player", moveLockedRoom, 2)]).2,
      (c.field = "health" || c.field = "energy") = true →
      ∃ n : Int, c.newValue = .num n ∧ 0 ≤ n ∧ n ≤ 100) :=
  ⟨rfl, C4_health_energy_bounds sampleWorld
    [("player", waitAction, 1), ("player", moveLockedRoom, 2)] rfl⟩

/-! ### Heap lemmas: allocations and in-place commit writes stay above the
pre-call frontier -/

theorem hAlloc_get_lt {h : Heap} (w : World) {i : Nat} (hi : i < h.cells.length) :
    (hAlloc h w).2.cells.get? i = h.cells.get? i :=
  List.get?_append hi

theorem applyChangesH_get_ne (cs : List StateChange) (h : Heap) (a i : Nat)
    (hne : a ≠ i) : (applyChangesH h a cs).1.cells.get? i = h.cells.get? i := by
  induction cs generalizing h with
  | nil => rfl
  | cons c rest ih =>
    unfold applyChangesH
    cases hac : applyChange (hRead h a) c with
    | error m =>
      dsimp only
      exact List.get?_set_ne _ _ hne
    | ok w2 =>
      dsimp only
      rw [ih (hWrite h a w2)]
      exact List.get?_set_ne _ _ hne

theorem applyChangesH_length (cs : List StateChange) (h : Heap) (a : Nat) :
    (applyChangesH h a cs).1.cells.length = h.cells.length := by
  induction cs generalizing h with
  | nil => rfl
  | cons c rest ih =>
    unfold applyChangesH
    cases hac : applyChange (hRead h a) c with
    | error m =>
      dsimp only
      exact List.length_set _ _ _
    | ok w2 =>
      dsimp only
      rw [ih (hWrite h a w2)]
      exact List.length_set _ _ _

/-- C5: over the instrumented heap, the constructor clones its argument into
a fresh cell, and executeAction never writes to any cell that existed before
the call: the caller's World object, the constructor's argument and the
world passed to commit keep their exact pre-call values, while a successful
call hands back a strictly fresh object. -/
theorem C5_copy_on_write (h : Heap) (src : Nat) (e : HEngineState) (pid : String)
    (a : Action) (t : Int) :
    (heapAgreesBelow (mkEngineH h src).2 h h.cells.length ∧
      (mkEngineH h src).1.worldAddr = h.cells.length) ∧
    (∀ h2 e2 r, executeActionH h e pid a t = .ok (h2, e2, r) →
      heapAgreesBelow h2 h h.cells.length ∧
      (r.success = true → h.cells.length ≤ r.worldAddr)) := by
  constructor
  · exact ⟨fun i hi => hAlloc_get_lt _ hi, rfl⟩
  · intro h2 e2 r he
    unfold executeActionH at he
    dsimp only at he
    cases hp : mapGet (hRead h e.worldAddr) pid with
    | none =>
      rw [hp] at he
      dsimp only at he
      cases he
      exact ⟨fun i hi => rfl, fun hs => by cases hs⟩
    | some player =>
      rw [hp] at he
      dsimp only at he
      cases htp : typeIs player "person" with
      | false =>
        rw [if_pos (by rw [htp]; rfl)] at he
        cases he
        exact ⟨fun i hi => rfl, fun hs => by cases hs⟩
      | true =>
        rw [if_neg (by rw [htp]; decide)] at he
        cases hact : hActive e.htm with
        | true =>
          rw [if_pos (by rw [hact])] at he
          cases he
        | false =>
          rw [if_neg (by rw [hact]; decide)] at he
          cases hv : validateAction (hRead h e.worldAddr) a player with
          | some err =>
            rw [hv] at he
            dsimp only at he
            cases he
            refine ⟨fun i hi => ?_, fun hs => by cases hs⟩
            rw [hAlloc_get_lt _ (by rw [hAlloc, List.length_append]; dsimp; omega)]
            exact hAlloc_get_lt _ hi
          | none =>
            rw [hv] at he
            dsimp only at he
            cases hrec : recordActionChanges (hRead h e.worldAddr) player a t with
            | error m =>
              rw [hrec] at he
              dsimp only at he
              cases he
              refine ⟨fun i hi => ?_, fun hs => by cases hs⟩
              rw [hAlloc_get_lt _ (by rw [hAlloc, List.length_append]; dsimp; omega)]
              exact hAlloc_get_lt _ hi
            | ok acs =>
              rw [hrec] at he
              dsimp only at he
              have hna : (hAlloc (hAlloc h (hRead h e.worldAddr)).2
                  (hRead (hAlloc h (hRead h e.worldAddr)).2 e.worldAddr)).1 =
                  h.cells.length + 1 := by
                show (h.cells ++ [hRead h e.worldAddr]).length = h.cells.length + 1
                rw [List.length_append]
                rfl
              cases happc : applyChangesH
                  (hAlloc (hAlloc h (hRead h e.worldAddr)).2
                    (hRead (hAlloc h (hRead h e.worldAddr)).2 e.worldAddr)).2
                  (hAlloc (hAlloc h (hRead h e.worldAddr)).2
                    (hRead (hAlloc h (hRead h e.worldAddr)).2 e.worldAddr)).1
                  ((if 0 < a.energyCost then
                      [createEnergyChange pid ((energyVal player).getD 0)
                        (max 0 ((energyVal player).getD 0 - a.energyCost)) t
                        (actionTypeName a.type)]
                    else []) ++ acs) with
              | mk h3 mo =>
                have h3g : ∀ i, i < h.cells.length →
                    h3.cells.get? i = h.cells.get? i := by
                  intro i hi
                  have hgn := applyChangesH_get_ne
                    ((if 0 < a.energyCost then
                        [createEnergyChange pid ((energyVal player).getD 0)
                          (max 0 ((energyVal player).getD 0 - a.energyCost)) t
                          (actionTypeName a.type)]
                      else []) ++ acs)
                    (hAlloc (hAlloc h (hRead h e.worldAddr)).2
                      (hRead (hAlloc h (hRead h e.worldAddr)).2 e.worldAddr)).2
                    (hAlloc (hAlloc h (hRead h e.worldAddr)).2
                      (hRead (hAlloc h (hRead h e.worldAddr)).2 e.worldAddr)).1 i
                    (by rw [hna]; omega)
                  rw [happc] at hgn
                  dsimp only at hgn
                  rw [hgn]
                  rw [hAlloc_get_lt _ (by
                    show i < (h.cells ++ [hRead h e.worldAddr]).length
                    simp
                    omega)]
                  exact hAlloc_get_lt _ hi
                have h3len : h.cells.length + 2 ≤ h3.cells.length := by
                  have hl := applyChangesH_length
                    ((if 0 < a.energyCost then
                        [createEnergyChange pid ((energyVal player).getD 0)
                          (max 0 ((energyVal player).getD 0 - a.energyCost)) t
                          (actionTypeName a.type)]
                      else []) ++ acs)
                    (hAlloc (hAlloc h (hRead h e.worldAddr)).2
                      (hRead (hAlloc h (hRead h e.worldAddr)).2 e.worldAddr)).2
                    (hAlloc (hAlloc h (hRead h e.worldAddr)).2
                      (hRead (hAlloc h (hRead h e.worldAddr)).2 e.worldAddr)).1
                  rw [happc] at hl
                  dsimp only at hl
                  rw [hl]
                  show h.cells.length + 2 ≤ ((h.cells ++ [hRead h e.worldAddr]) ++
                    [hRead (hAlloc h (hRead h e.worldAddr)).2 e.worldAddr]).length
                  simp
                rw [happc] at he
                cases mo with
                | some m =>
                  dsimp only at he
                  cases he
                  refine ⟨fun i hi => ?_, fun hs => by cases hs⟩
                  rw [hAlloc_get_lt _ (by omega)]
                  exact h3g i hi
                | none =>
                  dsimp only at he
                  cases he
                  refine ⟨fun i hi => h3g i hi, fun hs => ?_⟩
                  show h.cells.length ≤ (hAlloc (hAlloc h (hRead h e.worldAddr)).2
                    (hRead (hAlloc h (hRead h e.worldAddr)).2 e.worldAddr)).1
                  rw [hna]
                  omega

/-- C5 witness: on a one-cell heap holding the sample world, the constructor
clone lands in the fresh cell 1 and a WAIT call leaves cell 0 untouched. -/
theorem C5_witness :
    (heapAgreesBelow (mkEngineH { cells := [sampleWorld] } 0).2
        { cells := [sampleWorld] } 1 ∧
      (mkEngineH { cells := [sampleWorld] } 0).1.worldAddr = 1) ∧
    (∀ h2 e2 r, executeActionH { cells := [sampleWorld] } ⟨0, none⟩ "player"
        waitAction 1 = .ok (h2, e2, r) →
      heapAgreesBelow h2 { cells := [sampleWorld] } 1 ∧
      (r.success = true → 1 ≤ r.worldAddr)) :=
  C5_copy_on_write { cells := [sampleWorld] } 0 ⟨0, none⟩ "player" waitAction 1

theorem validateAction_wait_ok {w : World} {player : JValue} (d : String)
    (hpe : optLt (energyVal player) 0 = false) :
    validateAction w ⟨ActionType.WAIT, none, d, 0⟩ player = none := by
  unfold validateAction
  dsimp only
  rw [if_neg (by rw [hpe]; decide)]

theorem hRead_alloc_fresh (h : Heap) (w : World) :
    hRead (hAlloc h w).2 (hAlloc h w).1 = w := by
  unfold hRead hAlloc
  dsimp
  rw [List.get?_concat_length]
  rfl

/-- C10: committing a transaction that recorded zero changes returns a World
with the exact value passed to commit (cloneWorld is the identity on
values); a WAIT action, which records no changes, therefore commits to a
world deep-equal to the previous one, and over the instrumented heap the
returned world is a fresh object (a new address) carrying that same value. -/
theorem C10_empty_commit (tm : TMState) (w : World) (t : StateTransaction)
    (ht : tm.transaction = some t) (hc : t.committed = false)
    (hr : t.rolledBack = false) (hch : t.changes = []) :
    TMcommit tm w = .ok ({ transaction := some { t with committed := true } }, w) ∧
    (∀ (s : EngineState) (pid d : String) (player : JValue) (turn : Int),
      tmIdle s.tm = true → mapGet s.world pid = some player →
      typeIs player "person" = true → optLt (energyVal player) 0 = false →
      ∃ tm2, executeAction s pid ⟨ActionType.WAIT, none, d, 0⟩ turn =
        .ok ({ world := s.world, tm := tm2 },
          { success := true, world := s.world, changes := [], error := none }, [])) ∧
    (∀ (h : Heap) (e : HEngineState) (pid d : String) (player : JValue) (turn : Int),
      hActive e.htm = false → e.worldAddr < h.cells.length →
      mapGet (hRead h e.worldAddr) pid = some player →
      typeIs player "person" = true → optLt (energyVal player) 0 = false →
      ∃ h2 e2 r, executeActionH h e pid ⟨ActionType.WAIT, none, d, 0⟩ turn =
        .ok (h2, e2, r) ∧ r.success = true ∧ r.worldAddr ≠ e.worldAddr ∧
        hRead h2 r.worldAddr = hRead h e.worldAddr) := by
  refine ⟨?_, ?_, ?_⟩
  · unfold TMcommit
    rw [ht]
    dsimp only
    rw [if_neg (by rw [hc, hr]; decide)]
    rw [hch]
    rfl
  · intro s pid d player turn hidle hp htp hpe
    obtain ⟨tm2, hexec⟩ := executeAction_success s pid
      ⟨ActionType.WAIT, none, d, 0⟩ turn hidle hp htp
      (validateAction_wait_ok d hpe) rfl rfl rfl
    exact ⟨tm2, hexec⟩
  · intro h e pid d player turn hact hlt hp htp hpe
    unfold executeActionH
    dsimp only
    rw [hp]
    dsimp only
    rw [if_neg (by rw [htp]; decide)]
    rw [if_neg (by rw [hact]; decide)]
    rw [validateAction_wait_ok d hpe]
    dsimp only
    rw [if_neg (by decide)]
    rw [show recordActionChanges (hRead h e.worldAddr) player
      ⟨ActionType.WAIT, none, d, 0⟩ turn = .ok [] from rfl]
    dsimp only
    rw [show ([] : List StateChange) ++ [] = [] from rfl]
    refine ⟨_, _, _, rfl, rfl, ?_, ?_⟩
    · show (hAlloc (hAlloc h (hRead h e.worldAddr)).2
        (hRead (hAlloc h (hRead h e.worldAddr)).2 e.worldAddr)).1 ≠ e.worldAddr
      show (h.cells ++ [hRead h e.worldAddr]).length ≠ e.worldAddr
      simp
      omega
    · rw [hRead_alloc_fresh]
      unfold hRead
      rw [hAlloc_get_lt _ hlt]

/-- C10 witness: an in-flight transaction with no recorded changes over the
sample world commits back to the identical world value. -/
theorem C10_witness :
    TMcommit ⟨some ⟨"", createSnapshot sampleWorld 1 none, [], false, false⟩⟩
        sampleWorld =
      .ok (⟨some ⟨"", createSnapshot sampleWorld 1 none, [], true, false⟩⟩,
        sampleWorld) ∧
    (∀ (s : EngineState) (pid d : String) (player : JValue) (turn : Int),
      tmIdle s.tm = true → mapGet s.world pid = some player →
      typeIs player "person" = true → optLt (energyVal player) 0 = false →
      ∃ tm2, executeAction s pid ⟨ActionType.WAIT, none, d, 0⟩ turn =
        .ok ({ world := s.world, tm := tm2 },
          { success := true, world := s.world, changes := [], error := none }, [])) ∧
    (∀ (h : Heap) (e : HEngineState) (pid d : String) (player : JValue) (turn : Int),
      hActive e.htm = false → e.worldAddr < h.cells.length →
      mapGet (hRead h e.worldAddr) pid = some player →
      typeIs player "person" = true → optLt (energyVal player) 0 = false →
      ∃ h2 e2 r, executeActionH h e pid ⟨ActionType.WAIT, none, d, 0⟩ turn =
        .ok (h2, e2, r) ∧ r.success = true ∧ r.worldAddr ≠ e.worldAddr ∧
        hRead h2 r.worldAddr = hRead h e.worldAddr) :=
  C10_empty_commit ⟨some ⟨"", createSnapshot sampleWorld 1 none, [], false, false⟩⟩
    sampleWorld ⟨"", createSnapshot sampleWorld 1 none, [], false, false⟩
    rfl rfl rfl rfl

theorem mem_ite_cond {p : Prop} [Decidable p] {xs : List Action} {a : Action}
    (h : a ∈ (if p then xs else [])) : p ∧ a ∈ xs := by
  by_cases hp : p
  · rw [if_pos hp] at h
    exact ⟨hp, h⟩
  · rw [if_neg hp] at h
    cases h

theorem entity_resolves {w : World} {p : JValue}
    (hids : ∀ x ∈ w.entities, (eid? x).isSome = true)
    (hnodup : nodupIds w.entities) (hmem : p ∈ w.entities) :
    ∃ tid, eid? p = some tid ∧ mapGet w tid = some p := by
  have h1 := hids p hmem
  cases he : eid? p with
  | none => rw [he] at h1; cases h1
  | some tid => exact ⟨tid, rfl, lastById_of_mem_nodup hnodup hmem he⟩

theorem drop_block_mem {w : World} {player : JValue} {act : Action}
    (h : act ∈ ((match inventoryArr player with
      | some xs =>
        xs.filterMap (fun idv =>
          match idv with
          | JValue.str s =>
            (match mapGet w s with
            | some item =>
              some ⟨ActionType.DROP_ITEM, some s,
                "Drop " ++ jsDisplayO (jsGet item "name"), 0⟩
            | none => none)
          | _ => none)
      | none => []) : List Action)) :
    ∃ s xs item, inventoryArr player = some xs ∧ JValue.str s ∈ xs ∧
      mapGet w s = some item ∧
      act = ⟨ActionType.DROP_ITEM, some s,
        "Drop " ++ jsDisplayO (jsGet item "name"), 0⟩ := by
  cases hinv : inventoryArr player with
  | none => rw [hinv] at h; cases h
  | some xs =>
    rw [hinv] at h
    obtain ⟨idv, hmemI, hfm⟩ := List.mem_filterMap.1 h
    cases idv with
    | str s =>
      dsimp only at hfm
      cases hmg : mapGet w s with
      | none => rw [hmg] at hfm; cases hfm
      | some item =>
        rw [hmg] at hfm
        dsimp only at hfm
        cases hfm
        exact ⟨s, xs, item, rfl, hmemI, hmg, rfl⟩
    | null => cases hfm
    | bool b => cases hfm
    | num n => cases hfm
    | arr ys => cases hfm
    | obj fs => cases hfm

theorem use_block_mem {w : World} {player : JValue} {act : Action}
    (h : act ∈ ((match inventoryArr player with
      | some xs =>
        xs.filterMap (fun idv =>
          match idv with
          | JValue.str s =>
            (match mapGet w s with
            | some item =>
              if truthyO (jsGet item "usable") then
                some ⟨ActionType.USE_ITEM, some s,
                  "Use " ++ jsDisplayO (jsGet item "name"), 0⟩
              else none
            | none => none)
          | _ => none)
      | none => []) : List Action)) :
    ∃ s xs item, inventoryArr player = some xs ∧ JValue.str s ∈ xs ∧
      mapGet w s = some item ∧
      act = ⟨ActionType.USE_ITEM, some s,
        "Use " ++ jsDisplayO (jsGet item "name"), 0⟩ := by
  cases hinv : inventoryArr player with
  | none => rw [hinv] at h; cases h
  | some xs =>
    rw [hinv] at h
    obtain ⟨idv, hmemI, hfm⟩ := List.mem_filterMap.1 h
    cases idv with
    | str s =>
      dsimp only at hfm
      cases hmg : mapGet w s with
      | none => rw [hmg] at hfm; cases hfm
      | some item =>
        rw [hmg] at hfm
        dsimp only at hfm
        by_cases hu : truthyO (jsGet item "usable") = true
        · rw [if_pos hu] at hfm
          cases hfm
          exact ⟨s, xs, item, rfl, hmemI, hmg, rfl⟩
        · rw [if_neg hu] at hfm
          cases hfm
    | null => cases hfm
    | bool b => cases hfm
    | num n => cases hfm
    | arr ys => cases hfm
    | obj fs => cases hfm

/-- C9 (implicit): on a well-formed world whose persons satisfy the health
and energy invariant, every action generateValidActions emits for a player
passes validateAction for that same player unchanged: a freshly generated
action is never rejected by validation. -/
theorem C9_generated_actions_validate (w : World) (pid : String) {player : JValue}
    (hwf : wfWorld w = true) (hinv : invHE w = true)
    (hp : mapGet w pid = some player) :
    ∀ act ∈ generateValidActions w pid, validateAction w act player = none := by
  intro act hmem
  unfold wfWorld at hwf
  rw [Bool.and_eq_true, Bool.and_eq_true] at hwf
  obtain ⟨⟨hidsD, hnodupD⟩, hcOK⟩ := hwf
  have hnodup : nodupIds w.entities := by
    unfold nodupIds
    exact of_decide_eq_true hnodupD
  rw [List.all_eq_true] at hidsD hcOK
  unfold invHE at hinv
  rw [List.all_eq_true] at hinv
  have hPmem := (lastById_mem hp).1
  have hok := hinv player hPmem
  cases hrf : resolutionFails w pid with
  | true =>
    have h2 : (match mapGet w pid with
      | none => true
      | some player =>
        !(typeIs player "person") ||
        (match (match asStrO (jsGet player "location") with
          | some l => mapGet w l
          | none => none) with
         | none => true
         | some loc => !(typeIs loc "place"))) = true := by
      unfold resolutionFails at hrf
      exact hrf
    rw [generateValidActions_invalid w pid h2] at hmem
    cases hmem
  | false =>
    unfold resolutionFails at hrf
    rw [hp] at hrf
    dsimp only at hrf
    rw [Bool.or_eq_false_iff] at hrf
    obtain ⟨h1, h2⟩ := hrf
    have htp : typeIs player "person" = true := by
      cases ht : typeIs player "person" with
      | false => rw [ht] at h1; exact absurd h1 (by decide)
      | true => rfl
    obtain ⟨e, he, he0, he100⟩ := personOK_energy_bounds htp hok
    have hoptlt : ∀ c : Int, c ≤ e → optLt (energyVal player) c = false := by
      intro c hc
      rw [he]
      unfold optLt
      exact decide_eq_false (by omega)
    have hge : ∀ {c : Int}, optGe (energyVal player) c = true → c ≤ e := by
      intro c hc
      rw [he] at hc
      unfold optGe at hc
      exact of_decide_eq_true hc
    cases hres : (match asStrO (jsGet player "location") with
      | some l => mapGet w l
      | none => none) with
    | none => rw [hres] at h2; cases h2
    | some place =>
      rw [hres] at h2
      dsimp only at h2
      have hpt : typeIs place "place" = true := by
        cases ht : typeIs place "place" with
        | false => rw [ht] at h2; exact absurd h2 (by decide)
        | true => rfl
      obtain ⟨l, hlstr, hlres⟩ : ∃ l, asStrO (jsGet player "location") = some l ∧
          mapGet w l = some place := by
        cases hs : asStrO (jsGet player "location") with
        | none => rw [hs] at hres; cases hres
        | some l2 =>
          rw [hs] at hres
          exact ⟨l2, rfl, hres⟩
      rw [generateValidActions_eq w pid hp htp hres hpt] at hmem
      rcases List.mem_append.1 hmem with h7 | h8
      · rcases List.mem_append.1 h7 with h6 | hUse
        · rcases List.mem_append.1 h6 with h5 | hDrop
          · rcases List.mem_append.1 h5 with h4 | hTake
            · rcases List.mem_append.1 h4 with h3 | hTalk
              · rcases List.mem_append.1 h3 with h2b | hMove
                · rcases List.mem_append.1 h2b with hRW | hExp
                  · simp only [List.mem_cons, List.not_mem_nil, or_false] at hRW
                    rcases hRW with rfl | rfl
                    · unfold validateAction
                      dsimp only
                      rw [if_neg (by rw [hoptlt 0 he0]; decide)]
                    · unfold validateAction
                      dsimp only
                      rw [if_neg (by rw [hoptlt 0 he0]; decide)]
                  · obtain ⟨hgate, h⟩ := mem_ite_cond hExp
                    simp only [List.mem_cons, List.not_mem_nil, or_false] at h
                    subst h
                    have h5e := hge hgate
                    unfold validateAction
                    dsimp only
                    rw [if_neg (by rw [hoptlt 4 (by omega)]; decide)]
                · obtain ⟨hgate, h⟩ := mem_ite_cond hMove
                  rw [Bool.and_eq_true] at hgate
                  obtain ⟨htc, hgt10⟩ := hgate
                  have h10 : (10 : Int) < e := by
                    rw [he] at hgt10
                    unfold optGt at hgt10
                    exact of_decide_eq_true hgt10
                  cases hc : jsGet place "connections" with
                  | none =>
                    rw [hc] at h
                    dsimp only [Option.getD, jsEntries] at h
                    simp at h
                  | some cv =>
                    rw [hc] at h
                    dsimp only [Option.getD] at h
                    cases cv with
                    | obj cfs =>
                      dsimp only [jsEntries] at h
                      obtain ⟨⟨tk, v⟩, hmemkv, hsome⟩ := List.mem_filterMap.1 h
                      have hcok := hcOK place (lastById_mem hlres).1
                      unfold connectionsOK at hcok
                      rw [hc] at hcok
                      dsimp only at hcok
                      rw [Bool.and_eq_true] at hcok
                      obtain ⟨hkeysD, hshapeAll⟩ := hcok
                      have hkeys := of_decide_eq_true hkeysD
                      have hjl : jlookup cfs tk = some v :=
                        jlookup_of_mem hkeys hmemkv
                      rw [List.all_eq_true] at hshapeAll
                      have hsh := hshapeAll (tk, v) hmemkv
                      dsimp only at hsh
                      unfold moveActionFor at hsome
                      dsimp only at hsome
                      cases htk : mapGet w tk with
                      | none => rw [htk] at hsome; cases hsome
                      | some tp =>
                        rw [htk] at hsome
                        dsimp only at hsome
                        by_cases hcond : (!(truthyO (jsGet v "requires_item") &&
                            !(match jsGet v "requires_item" with
                              | some rv => invIncludes player rv
                              | none => false)) &&
                            !(truthyO (jsGet v "requires_health") &&
                              jsLtB (jsGet player "health")
                                (jsGet v "requires_health"))) = true
                        swap
                        · rw [if_neg hcond] at hsome
                          cases hsome
                        rw [if_pos hcond] at hsome
                        cases hsome
                        unfold validateAction
                        dsimp only
                        rw [if_neg (by rw [hoptlt 5 (by omega)]; decide)]
                        rw [hlstr]
                        dsimp only
                        rw [hlres]
                        dsimp only
                        rw [hc]
                        dsimp only [Option.getD]
                        rw [jsGet_obj, hjl]
                        dsimp only [truthyO]
                        cases v with
                        | obj cfs2 =>
                          rw [show truthy (JValue.obj cfs2) = true from rfl]
                          rw [if_neg (by decide)]
                        | null => cases hsh
                        | bool b => cases hsh
                        | num n => cases hsh
                        | str s2 => cases hsh
                        | arr ys => cases hsh
                    | null => dsimp only [jsEntries] at h; simp at h
                    | bool b => dsimp only [jsEntries] at h; simp at h
                    | num n => dsimp only [jsEntries] at h; simp at h
                    | str s2 => dsimp only [jsEntries] at h; simp at h
                    | arr ys => dsimp only [jsEntries] at h; simp at h
              · obtain ⟨hgate, h⟩ := mem_ite_cond hTalk
                have h5e := hge hgate
                obtain ⟨p, hpm, rfl⟩ := List.mem_map.1 h
                unfold peopleHere at hpm
                obtain ⟨hpmem, hpred⟩ := List.mem_filter.1 hpm
                rw [Bool.and_eq_true, Bool.and_eq_true] at hpred
                obtain ⟨⟨htpp, hloceq⟩, -⟩ := hpred
                obtain ⟨tid, htid, hmget⟩ := entity_resolves hidsD hnodup hpmem
                unfold validateAction
                dsimp only
                rw [if_neg (by rw [hoptlt 3 (by omega)]; decide)]
                rw [htid]
                dsimp only
                rw [hmget]
                dsimp only
                rw [if_neg (by rw [htpp]; decide)]
                rw [if_neg (by rw [hloceq]; decide)]
            · obtain ⟨it, hitm, rfl⟩ := List.mem_map.1 hTake
              unfold itemsHere at hitm
              obtain ⟨himem, hpred⟩ := List.mem_filter.1 hitm
              rw [Bool.and_eq_true] at hpred
              obtain ⟨htit, hloceq⟩ := hpred
              obtain ⟨tid, htid, hmget⟩ := entity_resolves hidsD hnodup himem
              unfold validateAction
              dsimp only
              rw [if_neg (by rw [hoptlt 0 he0]; decide)]
              rw [htid]
              dsimp only
              rw [hmget]
              dsimp only
              rw [if_pos (by rw [htit, hloceq]; rfl)]
          · obtain ⟨s, xs, item, hinvA, hsm, hmg, rfl⟩ := drop_block_mem hDrop
            have hincl : invIncludes player (JValue.str s) = true := by
              unfold invIncludes
              rw [hinvA, List.any_eq_true]
              refine ⟨JValue.str s, hsm, ?_⟩
              rw [show jsStrictEq (JValue.str s) (JValue.str s) = (s == s) from rfl]
              exact beq_self_eq_true s
            unfold validateAction
            dsimp only
            rw [if_neg (by rw [hoptlt 0 he0]; decide)]
            rw [if_pos hincl]
        · obtain ⟨s, xs, item, hinvA, hsm, hmg, rfl⟩ := use_block_mem hUse
          have hincl : invIncludes player (JValue.str s) = true := by
            unfold invIncludes
            rw [hinvA, List.any_eq_true]
            refine ⟨JValue.str s, hsm, ?_⟩
            rw [show jsStrictEq (JValue.str s) (JValue.str s) = (s == s) from rfl]
            exact beq_self_eq_true s
          unfold validateAction
          dsimp only
          rw [if_neg (by rw [hoptlt 0 he0]; decide)]
          rw [if_pos hincl]
      · obtain ⟨hgate, h⟩ := mem_ite_cond h8
        have h2e := hge hgate
        rcases List.mem_append.1 h with h3 | hLast
        · rcases List.mem_append.1 h3 with hP | hI
          · obtain ⟨p, hpm, rfl⟩ := List.mem_map.1 hP
            unfold peopleHere at hpm
            obtain ⟨hpmem, -⟩ := List.mem_filter.1 hpm
            obtain ⟨tid, htid, hmget⟩ := entity_resolves hidsD hnodup hpmem
            unfold validateAction
            dsimp only
            rw [if_neg (by rw [hoptlt 1 (by omega)]; decide)]
            rw [htid]
            dsimp only
            rw [hmget]
          · obtain ⟨it, hitm, rfl⟩ := List.mem_map.1 hI
            obtain ⟨himem2, -⟩ := List.mem_filter.1 hitm
            have hresit : ∃ tid, eid? it = some tid ∧ mapGet w tid = some it := by
              rcases List.mem_append.1 himem2 with hih | hir
              · unfold itemsHere at hih
                obtain ⟨himem, -⟩ := List.mem_filter.1 hih
                exact entity_resolves hidsD hnodup himem
              · unfold invResolved at hir
                cases hji : jsGet player "inventory" with
                | none => rw [hji] at hir; cases hir
                | some iv =>
                  rw [hji] at hir
                  cases iv with
                  | arr xs =>
                    dsimp only at hir
                    obtain ⟨idv, hmemI, hfm⟩ := List.mem_filterMap.1 hir
                    cases idv with
                    | str s =>
                      dsimp only at hfm
                      exact ⟨s, (lastById_mem hfm).2, hfm⟩
                    | null => cases hfm
                    | bool b => cases hfm
                    | num n => cases hfm
                    | arr ys => cases hfm
                    | obj fs => cases hfm
                  | null => cases hir
                  | bool b => cases hir
                  | num n => cases hir
                  | str s2 => cases hir
                  | obj fs => cases hir
            obtain ⟨tid, htid, hmget⟩ := hresit
            unfold validateAction
            dsimp only
            rw [if_neg (by rw [hoptlt 1 (by omega)]; decide)]
            rw [htid]
            dsimp only
            rw [hmget]
        · simp only [List.mem_cons, List.not_mem_nil, or_false] at hLast
          subst hLast
          unfold validateAction
          dsimp only
          rw [if_neg (by rw [hoptlt 1 (by omega)]; decide)]
          rw [hlstr]
          dsimp only
          rw [hlres]

/-- C9 witness: in the sample world, every generated action for the hero
passes validation. -/
theorem C9_witness :
    wfWorld sampleWorld = true ∧ invHE sampleWorld = true ∧
    ∀ act ∈ generateValidActions sampleWorld "player",
      validateAction sampleWorld act
        (pObj [("id", .str "player"), ("name", .str "Hero"),
          ("type", .str "person"), ("description", .str "The brave hero"),
          ("location", .str "tavern"), ("health", .num 100),
          ("energy", .num 100), ("inventory", .arr [])]) = none :=
  ⟨rfl, rfl, C9_generated_actions_validate sampleWorld "player" rfl rfl rfl⟩

end WorldExplorer
